import Mathlib

/-!
# Verification of the presentation-generation pipeline

A shallow embedding, in Lean 4, of the core of the presentation-generation
serverless function (the streaming multi-stage pipeline: structured-output
parsing, data collection onto a blackboard, outline planning with count
enforcement, incremental slide generation with fallback and checkpointing).

Modelling conventions:
* JavaScript runtime values recovered from model output are modelled by the
  `Json` inductive below; JSON numbers are modelled as integers (the pipeline
  never relies on fractional values).
* `JSON.parse` / `JSON.stringify` are modelled by an executable recursive
  parser and printer over `List Char`.  The parser takes explicit fuel
  (structurally decreasing) so that it is a computable total function; the
  fuel supplied by `jsParse` is always sufficient (see `fuelV_le_length`).
* JavaScript truthiness of a parsed value is modelled by `truthy`.
* External effects (the data store, the LLM, the event stream) are modelled
  by explicit oracles/parameters and by lists of actions recorded in order.
-/

namespace Pronghorn

/-- A JSON value as produced by `JSON.parse` in the engine, with numbers
restricted to integers (the pipeline's data never depends on fractions). -/
inductive Json where
  | null
  | bool (b : Bool)
  | num (n : Int)
  | str (s : String)
  | arr (elems : List Json)
  | obj (fields : List (String × Json))

mutual

def Json.beqVal : Json → Json → Bool
  | .null, .null => true
  | .bool a, .bool b => a == b
  | .num a, .num b => a == b
  | .str a, .str b => a == b
  | .arr a, .arr b => Json.beqList a b
  | .obj a, .obj b => Json.beqFields a b
  | _, _ => false

def Json.beqList : List Json → List Json → Bool
  | [], [] => true
  | a :: as, b :: bs => Json.beqVal a b && Json.beqList as bs
  | _, _ => false

def Json.beqFields : List (String × Json) → List (String × Json) → Bool
  | [], [] => true
  | (ka, va) :: fs, (kb, vb) :: gs => ka == kb && Json.beqVal va vb && Json.beqFields fs gs
  | _, _ => false

end

mutual

theorem Json.beqVal_iff : ∀ a b : Json, Json.beqVal a b = true ↔ a = b
  | .null, .null => by simp [Json.beqVal]
  | .bool _, .bool _ => by simp [Json.beqVal]
  | .num _, .num _ => by simp [Json.beqVal]
  | .str _, .str _ => by simp [Json.beqVal]
  | .arr x, .arr y => by simp [Json.beqVal, Json.beqList_iff x y]
  | .obj x, .obj y => by simp [Json.beqVal, Json.beqFields_iff x y]
  | .null, .bool _ | .null, .num _ | .null, .str _ | .null, .arr _ | .null, .obj _
  | .bool _, .null | .bool _, .num _ | .bool _, .str _ | .bool _, .arr _ | .bool _, .obj _
  | .num _, .null | .num _, .bool _ | .num _, .str _ | .num _, .arr _ | .num _, .obj _
  | .str _, .null | .str _, .bool _ | .str _, .num _ | .str _, .arr _ | .str _, .obj _
  | .arr _, .null | .arr _, .bool _ | .arr _, .num _ | .arr _, .str _ | .arr _, .obj _
  | .obj _, .null | .obj _, .bool _ | .obj _, .num _ | .obj _, .str _ | .obj _, .arr _ => by
    simp [Json.beqVal]

theorem Json.beqList_iff : ∀ xs ys : List Json, Json.beqList xs ys = true ↔ xs = ys
  | [], [] => by simp [Json.beqList]
  | x :: xs, y :: ys => by simp [Json.beqList, Json.beqVal_iff x y, Json.beqList_iff xs ys]
  | [], _ :: _ => by simp [Json.beqList]
  | _ :: _, [] => by simp [Json.beqList]

theorem Json.beqFields_iff : ∀ xs ys : List (String × Json), Json.beqFields xs ys = true ↔ xs = ys
  | [], [] => by simp [Json.beqFields]
  | (ka, va) :: fs, (kb, vb) :: gs => by
    simp [Json.beqFields, Json.beqVal_iff va vb, Json.beqFields_iff fs gs, and_assoc]
  | [], _ :: _ => by simp [Json.beqFields]
  | _ :: _, [] => by simp [Json.beqFields]

end

instance : DecidableEq Json := fun a b =>
  decidable_of_iff (Json.beqVal a b = true) (Json.beqVal_iff a b)

/-- JavaScript truthiness of a JSON value (`if (result) return result;` in the
source checks exactly this on the value returned by `JSON.parse`). -/
def truthy : Json → Bool
  | .null => false
  | .bool b => b
  | .num n => !(n == 0)
  | .str s => !(s == "")
  | .arr _ => true
  | .obj _ => true

/-! ## The printer: a model of `JSON.stringify` (canonical, no added spaces) -/

def digitChar (d : Nat) : Char := Char.ofNat (48 + d)

def hexDigitChar (d : Nat) : Char :=
  if d < 10 then digitChar d else Char.ofNat (87 + d)

/-- Decimal digits of `n`, most significant first; the fuel is structural and
`n + 1` is always enough (`digitCharsGo_eq`). -/
def digitCharsGo : Nat → Nat → List Char → List Char
  | 0, _, acc => acc
  | fuel + 1, n, acc =>
    if n < 10 then digitChar n :: acc
    else digitCharsGo fuel (n / 10) (digitChar (n % 10) :: acc)

def digitChars (n : Nat) : List Char := digitCharsGo (n + 1) n []

/-- Proof-side description of `digitChars`, by recursion on the number. -/
def digitsSpec (n : Nat) : List Char :=
  if n < 10 then [digitChar n]
  else digitsSpec (n / 10) ++ [digitChar (n % 10)]
termination_by n
decreasing_by exact Nat.div_lt_self (by omega) (by omega)

/-- The characters `JSON.stringify` emits for an integer. -/
def intChars (i : Int) : List Char :=
  if i < 0 then '-' :: digitChars i.natAbs else digitChars i.toNat

/-- The escape `JSON.stringify` emits for one character inside a string
literal: quote, backslash and the named control escapes, `\u00XX` for the
remaining control characters, and the character itself otherwise. -/
def escapeChar (c : Char) : List Char :=
  if c = '"' then ['\\', '"']
  else if c = '\\' then ['\\', '\\']
  else if c = '\n' then ['\\', 'n']
  else if c = '\r' then ['\\', 'r']
  else if c = '\t' then ['\\', 't']
  else if c = Char.ofNat 8 then ['\\', 'b']
  else if c = Char.ofNat 12 then ['\\', 'f']
  else if c.toNat < 32 then
    ['\\', 'u', '0', '0', hexDigitChar (c.toNat / 16), hexDigitChar (c.toNat % 16)]
  else [c]

def escapeList (s : List Char) : List Char := (s.map escapeChar).flatten

mutual

/-- `JSON.stringify`, character by character. -/
def svChars : Json → List Char
  | .num i => intChars i
  | .str s => '"' :: (escapeList s.toList ++ ['"'])
  | .bool true => ['t', 'r', 'u', 'e']
  | .null => ['n', 'u', 'l', 'l']
  | .bool false => ['f', 'a', 'l', 's', 'e']
  | .arr [] => ['[', ']']
  | .arr (x :: xs) => '[' :: (svElems (x :: xs) ++ [']'])
  | .obj [] => ['{', '}']
  | .obj (f :: fs) => '{' :: (svFields (f :: fs) ++ ['}'])

def svElems : List Json → List Char
  | [] => []
  | [x] => svChars x
  | x :: y :: ys => svChars x ++ ',' :: svElems (y :: ys)

def svFields : List (String × Json) → List Char
  | [] => []
  | [(k, v)] => '"' :: (escapeList k.toList ++ '"' :: ':' :: svChars v)
  | (k, v) :: g :: gs =>
    ('"' :: (escapeList k.toList ++ '"' :: ':' :: svChars v)) ++ ',' :: svFields (g :: gs)

end

def stringifyJson (v : Json) : String := ⟨svChars v⟩

/-! ## The parser: a model of `JSON.parse` -/

def isWsChar (c : Char) : Bool := c = ' ' || c = '\n' || c = '\t' || c = '\r'

def skipWs : List Char → List Char
  | [] => []
  | c :: cs => if isWsChar c then skipWs cs else c :: cs

/-- Accumulate a run of decimal digits, stopping at the first non-digit. -/
def readDigits (a : Nat) : List Char → Nat × List Char
  | [] => (a, [])
  | c :: cs => if c.isDigit then readDigits (a * 10 + (c.toNat - 48)) cs else (a, c :: cs)

def hexVal (c : Char) : Option Nat :=
  if c.isDigit then some (c.toNat - 48)
  else if 'a' ≤ c ∧ c ≤ 'f' then some (c.toNat - 87)
  else if 'A' ≤ c ∧ c ≤ 'F' then some (c.toNat - 55)
  else none

/-- Decode one escape sequence after the backslash: the decoded character and
the characters it consumed (so fuel can account for them). -/
def decodeEscape : List Char → Option (Char × Nat × List Char)
  | [] => none
  | e :: cs =>
    if e = '"' then some ('"', 1, cs)
    else if e = '\\' then some ('\\', 1, cs)
    else if e = '/' then some ('/', 1, cs)
    else if e = 'n' then some ('\n', 1, cs)
    else if e = 'r' then some ('\r', 1, cs)
    else if e = 't' then some ('\t', 1, cs)
    else if e = 'b' then some (Char.ofNat 8, 1, cs)
    else if e = 'f' then some (Char.ofNat 12, 1, cs)
    else if e = 'u' then
      match cs with
      | h1 :: h2 :: h3 :: h4 :: cs' =>
        match hexVal h1, hexVal h2, hexVal h3, hexVal h4 with
        | some a, some b, some c3, some d =>
          some (Char.ofNat (4096 * a + 256 * b + 16 * c3 + d), 5, cs')
        | _, _, _, _ => none
      | _ => none
    else none

/-- Body of a string literal after the opening quote: characters up to the
closing quote, processing the standard JSON escapes.  The fuel is structural;
one unit covers each produced character, so `input length + 1` suffices. -/
def parseStringGo : Nat → List Char → Option (List Char × List Char)
  | 0, _ => none
  | _ + 1, [] => none
  | fuel + 1, c :: cs =>
    if c = '"' then some ([], cs)
    else if c = '\\' then
      match decodeEscape cs with
      | some (ch, _, cs') => (parseStringGo fuel cs').map (fun p => (ch :: p.1, p.2))
      | none => none
    else (parseStringGo fuel cs).map (fun p => (c :: p.1, p.2))

def parseStringBody (cs : List Char) : Option (List Char × List Char) :=
  parseStringGo (cs.length + 1) cs

/-- A JSON number token: optional minus sign followed by digits. -/
def parseNumber : List Char → Option (Json × List Char)
  | [] => none
  | c :: cs =>
    if c = '-' then
      match cs with
      | [] => none
      | d :: _ =>
        if d.isDigit then
          let p := readDigits 0 cs
          some (.num (-(p.1 : Int)), p.2)
        else none
    else if c.isDigit then
      let p := readDigits 0 (c :: cs)
      some (.num (p.1 : Int), p.2)
    else none

/-- After a collection element: a separating comma (`true`) or the closing
delimiter (`false`), whitespace allowed before either. -/
def sepStep (close : Char) (cs : List Char) : Option (Bool × List Char) :=
  match skipWs cs with
  | [] => none
  | c :: r =>
    if c = ',' then some (true, r)
    else if c = close then some (false, r)
    else none

/-- An object key: quoted string then a colon, whitespace allowed. -/
def parseKey (cs : List Char) : Option (String × List Char) :=
  match skipWs cs with
  | [] => none
  | c :: cs' =>
    if c = '"' then
      (parseStringBody cs').bind (fun p =>
        match skipWs p.2 with
        | [] => none
        | c2 :: r => if c2 = ':' then some (⟨p.1⟩, r) else none)
    else none

mutual

/-- A JSON value; the fuel decreases structurally on every recursive call and
`length + 1` is always enough fuel for the printer's output. -/
def parseVal : Nat → List Char → Option (Json × List Char)
  | 0, _ => none
  | fuel + 1, cs =>
    match skipWs cs with
    | [] => none
    | c :: cs' =>
      if c = 'n' then
        if cs'.take 3 = ['u', 'l', 'l'] then some (.null, cs'.drop 3) else none
      else if c = 't' then
        if cs'.take 3 = ['r', 'u', 'e'] then some (.bool true, cs'.drop 3) else none
      else if c = 'f' then
        if cs'.take 4 = ['a', 'l', 's', 'e'] then some (.bool false, cs'.drop 4) else none
      else if c = '"' then
        (parseStringBody cs').map (fun p => (.str ⟨p.1⟩, p.2))
      else if c = '[' then
        match skipWs cs' with
        | [] => none
        | d :: r =>
          if d = ']' then some (.arr [], r)
          else (parseElems fuel (d :: r)).map (fun p => (.arr p.1, p.2))
      else if c = '{' then
        match skipWs cs' with
        | [] => none
        | d :: r =>
          if d = '}' then some (.obj [], r)
          else (parseFields fuel (d :: r)).map (fun p => (.obj p.1, p.2))
      else parseNumber (c :: cs')

/-- One or more array elements followed by the closing bracket. -/
def parseElems : Nat → List Char → Option (List Json × List Char)
  | 0, _ => none
  | fuel + 1, cs =>
    (parseVal fuel cs).bind (fun p =>
      (sepStep ']' p.2).bind (fun q =>
        if q.1 then (parseElems fuel q.2).map (fun w => (p.1 :: w.1, w.2))
        else some ([p.1], q.2)))

/-- One or more object members followed by the closing brace. -/
def parseFields : Nat → List Char → Option (List (String × Json) × List Char)
  | 0, _ => none
  | fuel + 1, cs =>
    (parseKey cs).bind (fun kp =>
      (parseVal fuel kp.2).bind (fun p =>
        (sepStep '}' p.2).bind (fun q =>
          if q.1 then (parseFields fuel q.2).map (fun w => ((kp.1, p.1) :: w.1, w.2))
          else some ([(kp.1, p.1)], q.2))))

end

/-- `JSON.parse` on a character list: parse one value, require only
whitespace to remain, and report failure (the thrown exception) as `none`. -/
def jsParse (cs : List Char) : Option Json :=
  match parseVal (cs.length + 1) cs with
  | some (v, r) => if skipWs r = [] then some v else none
  | none => none

/-- A list that does not begin with a decimal digit (what may legally follow
a printed number without extending it). -/
def noDigitHead : List Char → Bool
  | [] => true
  | c :: _ => !c.isDigit

mutual

/-- Fuel sufficient for `parseVal` to parse the printed form of a value. -/
def fuelV : Json → Nat
  | .null => 1
  | .bool _ => 1
  | .num _ => 1
  | .str _ => 1
  | .arr [] => 1
  | .arr (x :: xs) => 1 + fuelElems (x :: xs)
  | .obj [] => 1
  | .obj (f :: fs) => 1 + fuelFields (f :: fs)

def fuelElems : List Json → Nat
  | [] => 0
  | x :: xs => 1 + fuelV x + fuelElems xs

def fuelFields : List (String × Json) → Nat
  | [] => 0
  | (_, v) :: fs => 1 + fuelV v + fuelFields fs

end

/-- What may legally follow the printed form of `v` without altering the
parse: after a number, the remainder must not begin with a digit. -/
def safeRest : Json → List Char → Prop
  | .num _, rest => noDigitHead rest = true
  | _, _ => True

/-! ## Round trip: the parser inverts the printer -/

theorem digitCharsGo_eq : ∀ fuel n acc, n < fuel → digitCharsGo fuel n acc = digitsSpec n ++ acc
  | 0, _, _, h => by omega
  | fuel + 1, n, acc, h => by
    rw [digitCharsGo, digitsSpec]
    by_cases h10 : n < 10
    · simp [h10]
    · have hdiv : n / 10 < fuel := by
        have : n / 10 < n := Nat.div_lt_self (by omega) (by omega)
        omega
      simp only [h10, if_false]
      rw [digitCharsGo_eq fuel (n / 10) _ hdiv, List.append_assoc]
      simp

theorem digitChars_eq (n : Nat) : digitChars n = digitsSpec n := by
  rw [digitChars, digitCharsGo_eq (n + 1) n [] (by omega), List.append_nil]

theorem digitChar_isDigit {d : Nat} (h : d < 10) : (digitChar d).isDigit = true := by
  interval_cases d <;> decide

theorem digitChar_toNat {d : Nat} (h : d < 10) : (digitChar d).toNat - 48 = d := by
  interval_cases d <;> decide

theorem readDigits_digitsSpec :
    ∀ n a rest, readDigits a (digitsSpec n ++ rest)
      = readDigits (a * 10 ^ (digitsSpec n).length + n) rest := by
  intro n
  induction n using Nat.strong_induction_on with
  | _ n ih =>
    intro a rest
    rw [digitsSpec]
    by_cases h10 : n < 10
    · simp only [h10, if_true, List.cons_append, List.nil_append, readDigits,
        digitChar_isDigit h10, if_true, digitChar_toNat h10, List.length_singleton]
      norm_num
    · have hlt : n / 10 < n := Nat.div_lt_self (by omega) (by omega)
      simp only [h10, if_false, List.append_assoc, List.cons_append, List.nil_append]
      rw [ih (n / 10) hlt a (digitChar (n % 10) :: rest)]
      have hm : n % 10 < 10 := Nat.mod_lt _ (by omega)
      simp only [readDigits, digitChar_isDigit hm, if_true, digitChar_toNat hm,
        List.length_append, List.length_singleton]
      congr 1
      have := Nat.div_add_mod n 10
      rw [pow_succ]
      ring_nf
      omega

theorem readDigits_stop {rest : List Char} (h : noDigitHead rest = true) (a : Nat) :
    readDigits a rest = (a, rest) := by
  cases rest with
  | nil => rfl
  | cons c cs =>
    simp only [noDigitHead, Bool.not_eq_true'] at h
    simp [readDigits, h]

theorem readDigits_digits_done {n : Nat} {rest : List Char} (h : noDigitHead rest = true) :
    readDigits 0 (digitsSpec n ++ rest) = (n, rest) := by
  rw [readDigits_digitsSpec, readDigits_stop h]
  norm_num

theorem digitsSpec_ne_nil (n : Nat) : digitsSpec n ≠ [] := by
  rw [digitsSpec]
  split <;> simp

theorem digitsSpec_head_digit (n : Nat) :
    ∀ c t, digitsSpec n = c :: t → c.isDigit = true := by
  induction n using Nat.strong_induction_on with
  | _ n ih =>
    intro c t h
    rw [digitsSpec] at h
    by_cases h10 : n < 10
    · simp only [h10, if_true] at h
      cases h
      exact digitChar_isDigit h10
    · simp only [h10, if_false] at h
      have hlt : n / 10 < n := Nat.div_lt_self (by omega) (by omega)
      rcases hd : digitsSpec (n / 10) with _ | ⟨c', t'⟩
      · exact absurd hd (digitsSpec_ne_nil _)
      · rw [hd] at h
        simp only [List.cons_append] at h
        obtain ⟨rfl, -⟩ := List.cons.injEq .. ▸ h
        exact ih (n / 10) hlt c' t' hd

theorem hexVal_hexDigitChar {d : Nat} (h : d < 16) : hexVal (hexDigitChar d) = some d := by
  interval_cases d <;> decide

theorem parseStringGo_escape :
    ∀ (s : List Char) (fuel : Nat) (rest : List Char), s.length < fuel →
      parseStringGo fuel (escapeList s ++ '"' :: rest) = some (s, rest) := by
  intro s
  induction s with
  | nil =>
    intro fuel rest h
    match fuel, h with
    | f + 1, _ => simp [escapeList, parseStringGo]
  | cons c cs ih =>
    intro fuel rest h
    match fuel, h with
    | f + 1, h =>
      have hcs : cs.length < f := by simpa using h
      show parseStringGo (f + 1) ((escapeChar c ++ escapeList cs) ++ '"' :: rest) = _
      rw [escapeChar]
      by_cases h1 : c = '"'
      · subst h1; simp [parseStringGo, decodeEscape, ih f rest hcs]
      by_cases h2 : c = '\\'
      · subst h2; simp [parseStringGo, decodeEscape, ih f rest hcs]
      by_cases h3 : c = '\n'
      · subst h3; simp [parseStringGo, decodeEscape, ih f rest hcs]
      by_cases h4 : c = '\r'
      · subst h4; simp [parseStringGo, decodeEscape, ih f rest hcs]
      by_cases h5 : c = '\t'
      · subst h5; simp [parseStringGo, decodeEscape, ih f rest hcs]
      by_cases h6 : c = Char.ofNat 8
      · subst h6; simp [parseStringGo, decodeEscape, ih f rest hcs]
      by_cases h7 : c = Char.ofNat 12
      · subst h7; simp [parseStringGo, decodeEscape, ih f rest hcs]
      by_cases h8 : c.toNat < 32
      · simp only [h1, h2, h3, h4, h5, h6, h7, h8, if_false, if_true, List.cons_append,
          List.append_assoc]
        have hhi : c.toNat / 16 < 16 := by omega
        have hlo : c.toNat % 16 < 16 := Nat.mod_lt _ (by omega)
        simp only [parseStringGo, decodeEscape, reduceIte, reduceCtorEq,
          hexVal_hexDigitChar hhi, hexVal_hexDigitChar hlo]
        have hc : (16 * (c.toNat / 16) + c.toNat % 16) = c.toNat := Nat.div_add_mod _ 16
        simp [hexVal, hc, Char.ofNat_toNat, ih f rest hcs]
      · simp only [h1, h2, h3, h4, h5, h6, h7, h8, if_false, List.cons_append,
          List.singleton_append]
        rw [parseStringGo]
        simp [h1, h2, ih f rest hcs]

theorem escapeList_length_ge (s : List Char) : s.length ≤ (escapeList s).length := by
  induction s with
  | nil => simp [escapeList]
  | cons c cs ih =>
    show cs.length + 1 ≤ (escapeChar c ++ escapeList cs).length
    rw [List.length_append]
    have : 1 ≤ (escapeChar c).length := by
      rw [escapeChar]
      repeat' split
      all_goals simp
    omega

theorem parseStringBody_escape (s rest : List Char) :
    parseStringBody (escapeList s ++ '"' :: rest) = some (s, rest) := by
  rw [parseStringBody]
  apply parseStringGo_escape
  have := escapeList_length_ge s
  simp only [List.length_append, List.length_cons]
  omega

theorem skipWs_cons {c : Char} (t : List Char) (h : isWsChar c = false) :
    skipWs (c :: t) = c :: t := by
  simp [skipWs, h]


/-- The branch of `parseVal` a digit can never select: a digit is none of the
keyword/delimiter characters and is not whitespace. -/
theorem isDigit_facts {c : Char} (h : c.isDigit = true) :
    c ≠ 'n' ∧ c ≠ 't' ∧ c ≠ 'f' ∧ c ≠ '"' ∧ c ≠ '[' ∧ c ≠ '{' ∧ c ≠ '-' ∧
      isWsChar c = false ∧ c ≠ ']' ∧ c ≠ '}' ∧ c ≠ ',' := by
  have hws : isWsChar c = false := by
    by_contra hw
    simp only [Bool.not_eq_false] at hw
    simp only [isWsChar, Bool.or_eq_true, decide_eq_true_eq] at hw
    rcases hw with ((rfl | rfl) | rfl) | rfl <;> revert h <;> decide
  refine ⟨?_, ?_, ?_, ?_, ?_, ?_, ?_, hws, ?_, ?_, ?_⟩ <;>
    (rintro rfl; revert h; decide)

/-- The first character of a printed value: never whitespace and never one of
the delimiters that close a surrounding context. -/
theorem svChars_head (v : Json) :
    ∃ c t, svChars v = c :: t ∧ isWsChar c = false ∧ c ≠ ']' ∧ c ≠ '}' ∧ c ≠ ',' := by
  cases v with
  | null => exact ⟨'n', _, rfl, by decide, by decide, by decide, by decide⟩
  | bool b => cases b with
    | true => exact ⟨'t', _, rfl, by decide, by decide, by decide, by decide⟩
    | false => exact ⟨'f', _, rfl, by decide, by decide, by decide, by decide⟩
  | num i =>
    rw [show svChars (.num i) = intChars i from rfl, intChars]
    by_cases hneg : i < 0
    · exact ⟨'-', digitChars i.natAbs, by rw [if_pos hneg], by decide, by decide, by decide,
        by decide⟩
    · simp only [hneg, if_false, digitChars_eq]
      rcases hd : digitsSpec i.toNat with _ | ⟨c, t⟩
      · exact absurd hd (digitsSpec_ne_nil _)
      · have hdig := digitsSpec_head_digit i.toNat c t hd
        obtain ⟨-, -, -, -, -, -, -, hws, h1, h2, h3⟩ := isDigit_facts hdig
        exact ⟨c, t, rfl, hws, h1, h2, h3⟩
  | str s => exact ⟨'"', _, rfl, by decide, by decide, by decide, by decide⟩
  | arr xs => cases xs with
    | nil => exact ⟨'[', _, rfl, by decide, by decide, by decide, by decide⟩
    | cons x xs => exact ⟨'[', _, rfl, by decide, by decide, by decide, by decide⟩
  | obj fs => cases fs with
    | nil => exact ⟨'{', _, rfl, by decide, by decide, by decide, by decide⟩
    | cons f fs => exact ⟨'{', _, rfl, by decide, by decide, by decide, by decide⟩

theorem fuelV_pos : ∀ v : Json, 1 ≤ fuelV v
  | .null => by simp [fuelV]
  | .bool _ => by simp [fuelV]
  | .num _ => by simp [fuelV]
  | .str _ => by simp [fuelV]
  | .arr [] => by simp [fuelV]
  | .arr (_ :: _) => by simp [fuelV]
  | .obj [] => by simp [fuelV]
  | .obj (_ :: _) => by simp [fuelV]

theorem string_mk_toList (s : String) : String.mk s.toList = s := rfl

/-- `parseNumber` on a printed nonnegative number followed by a safe rest. -/
theorem parseNumber_digits (n : Nat) (rest : List Char) (hnd : noDigitHead rest = true) :
    parseNumber (digitsSpec n ++ rest) = some (.num (n : Int), rest) := by
  rcases hd : digitsSpec n with _ | ⟨c, t⟩
  · exact absurd hd (digitsSpec_ne_nil _)
  · have hdig := digitsSpec_head_digit n c t hd
    obtain ⟨-, -, -, -, -, -, hm, -, -, -, -⟩ := isDigit_facts hdig
    rw [List.cons_append, parseNumber.eq_def]
    simp only [hm, if_false, hdig, if_true, reduceIte]
    rw [← List.cons_append, ← hd, readDigits_digits_done hnd]

/-- `parseNumber` on a printed negative number followed by a safe rest. -/
theorem parseNumber_neg_digits (n : Nat) (rest : List Char) (hnd : noDigitHead rest = true) :
    parseNumber ('-' :: (digitsSpec n ++ rest)) = some (.num (-(n : Int)), rest) := by
  rcases hd : digitsSpec n with _ | ⟨c, t⟩
  · exact absurd hd (digitsSpec_ne_nil _)
  · have hdig := digitsSpec_head_digit n c t hd
    rw [List.cons_append, parseNumber.eq_def]
    simp only [Char.reduceEq, reduceIte, hdig, if_true]
    rw [← List.cons_append, ← hd, readDigits_digits_done hnd]

theorem sepStep_rb_close (r : List Char) : sepStep ']' (']' :: r) = some (false, r) := rfl

theorem sepStep_rb_sep (r : List Char) : sepStep ']' (',' :: r) = some (true, r) := rfl

theorem sepStep_cb_close (r : List Char) : sepStep '}' ('}' :: r) = some (false, r) := rfl

theorem sepStep_cb_sep (r : List Char) : sepStep '}' (',' :: r) = some (true, r) := rfl

/-- `parseKey` on a printed key (quote, escaped characters, quote, colon). -/
theorem parseKey_sv (k : String) (rest : List Char) :
    parseKey ('"' :: (escapeList k.toList ++ '"' :: (':' :: rest))) = some (k, rest) := by
  rw [parseKey, skipWs_cons _ (by decide)]
  simp only [reduceIte, Char.reduceEq]
  rw [parseStringBody_escape]
  simp only [Option.some_bind]
  rw [skipWs_cons _ (by decide)]
  simp only [reduceIte, Char.reduceEq, string_mk_toList]

mutual

/-- Core round trip: the parser, run on the printed form of a value followed
by any safe remainder, returns exactly that value and remainder. -/
theorem parseVal_sv : ∀ (v : Json) (fuel : Nat) (rest : List Char),
    fuelV v ≤ fuel → safeRest v rest → parseVal fuel (svChars v ++ rest) = some (v, rest)
  | v, fuel, rest, hfuel, hsafe => by
    obtain ⟨g, rfl⟩ : ∃ g, fuel = g + 1 := by
      have := fuelV_pos v
      exact ⟨fuel - 1, by omega⟩
    cases v with
    | null => rfl
    | bool b => cases b with
      | true => rfl
      | false => rfl
    | num i =>
      have hnd : noDigitHead rest = true := hsafe
      show parseVal (g + 1) (intChars i ++ rest) = _
      by_cases hneg : i < 0
      · have hI : intChars i = '-' :: digitChars i.natAbs := by
          rw [intChars, if_pos hneg]
        rw [hI, digitChars_eq, List.cons_append, parseVal, skipWs_cons _ (by decide)]
        simp only [Char.reduceEq, reduceIte]
        rw [parseNumber_neg_digits _ _ hnd]
        have hi : -(i.natAbs : Int) = i := by omega
        rw [hi]
      · have hI : intChars i = digitChars i.toNat := by
          rw [intChars, if_neg hneg]
        rw [hI, digitChars_eq]
        rcases hd : digitsSpec i.toNat with _ | ⟨c, t⟩
        · exact absurd hd (digitsSpec_ne_nil _)
        · have hdig := digitsSpec_head_digit i.toNat c t hd
          obtain ⟨hn, ht, hf, hq, hlb, hlc, -, hws, -, -, -⟩ := isDigit_facts hdig
          rw [List.cons_append, parseVal, skipWs_cons _ hws]
          simp only [hn, ht, hf, hq, hlb, hlc, reduceIte]
          rw [← List.cons_append, ← hd, parseNumber_digits _ _ hnd]
          have hi : ((i.toNat : Int)) = i := by omega
          rw [hi]
    | str s =>
      show parseVal (g + 1) (('"' :: (escapeList s.toList ++ ['"'])) ++ rest) = _
      rw [List.cons_append, parseVal, skipWs_cons _ (by decide)]
      simp only [Char.reduceEq, reduceIte, List.append_assoc, List.singleton_append]
      rw [parseStringBody_escape]
      simp [string_mk_toList]
    | arr xs =>
      cases xs with
      | nil => rfl
      | cons x xs =>
        show parseVal (g + 1) (('[' :: (svElems (x :: xs) ++ [']'])) ++ rest) = _
        rw [List.cons_append, parseVal, skipWs_cons _ (by decide)]
        simp only [Char.reduceEq, reduceIte, List.append_assoc, List.singleton_append]
        obtain ⟨c, t, hct, hws, hrb, -, -⟩ := svChars_head x
        have ht' : ∃ t', svElems (x :: xs) ++ ']' :: rest = c :: t' := by
          cases xs with
          | nil =>
            exact ⟨t ++ ']' :: rest, by
              rw [show svElems [x] = svChars x from rfl, hct]; simp⟩
          | cons y ys =>
            refine ⟨t ++ ',' :: svElems (y :: ys) ++ ']' :: rest, ?_⟩
            rw [show svElems (x :: y :: ys) = svChars x ++ ',' :: svElems (y :: ys) from rfl,
              hct]
            simp
        obtain ⟨t', ht'⟩ := ht'
        have hfe : fuelElems (x :: xs) ≤ g := by
          rw [show fuelV (.arr (x :: xs)) = 1 + fuelElems (x :: xs) from rfl] at hfuel
          omega
        have hrec := parseElems_sv x xs g rest hfe
        rw [ht', skipWs_cons _ hws]
        rw [ht'] at hrec
        simp only [if_neg hrb]
        rw [hrec]
        rfl
    | obj fs =>
      cases fs with
      | nil => rfl
      | cons f fs =>
        show parseVal (g + 1) (('{' :: (svFields (f :: fs) ++ ['}'])) ++ rest) = _
        rw [List.cons_append, parseVal, skipWs_cons _ (by decide)]
        simp only [Char.reduceEq, reduceIte, List.append_assoc, List.singleton_append]
        have ht' : ∃ t', svFields (f :: fs) ++ '}' :: rest = '"' :: t' := by
          rcases f with ⟨k, v⟩
          cases fs with
          | nil =>
            refine ⟨escapeList k.toList ++ '"' :: ':' :: (svChars v ++ '}' :: rest), ?_⟩
            rw [show svFields [(k, v)]
              = '"' :: (escapeList k.toList ++ '"' :: ':' :: svChars v) from rfl]
            simp
          | cons h hs =>
            refine ⟨escapeList k.toList
              ++ '"' :: ':' :: (svChars v ++ ',' :: (svFields (h :: hs) ++ '}' :: rest)), ?_⟩
            rw [show svFields ((k, v) :: h :: hs)
              = ('"' :: (escapeList k.toList ++ '"' :: ':' :: svChars v))
                ++ ',' :: svFields (h :: hs) from rfl]
            simp
        obtain ⟨t', ht'⟩ := ht'
        have hfe : fuelFields (f :: fs) ≤ g := by
          rw [show fuelV (.obj (f :: fs)) = 1 + fuelFields (f :: fs) from rfl] at hfuel
          omega
        have hrec := parseFields_sv f fs g rest hfe
        rw [ht', skipWs_cons _ (by decide)]
        rw [ht'] at hrec
        simp only [Char.reduceEq, reduceIte]
        rw [hrec]
        rfl
termination_by v _ _ _ _ => sizeOf v

/-- Round trip for one or more printed array elements up to the bracket. -/
theorem parseElems_sv : ∀ (x : Json) (xs : List Json) (fuel : Nat) (rest : List Char),
    fuelElems (x :: xs) ≤ fuel →
    parseElems fuel (svElems (x :: xs) ++ ']' :: rest) = some (x :: xs, rest)
  | x, xs, fuel, rest, hfuel => by
    obtain ⟨g, rfl⟩ : ∃ g, fuel = g + 1 := by
      rw [show fuelElems (x :: xs) = 1 + fuelV x + fuelElems xs from rfl] at hfuel
      exact ⟨fuel - 1, by omega⟩
    have hfx : fuelV x ≤ g := by
      rw [show fuelElems (x :: xs) = 1 + fuelV x + fuelElems xs from rfl] at hfuel
      omega
    cases xs with
    | nil =>
      rw [show svElems [x] = svChars x from rfl, parseElems,
        parseVal_sv x g (']' :: rest) hfx (by cases x <;> simp [safeRest, noDigitHead])]
      simp only [Option.some_bind, sepStep_rb_close]
      rfl
    | cons y ys =>
      rw [show svElems (x :: y :: ys) = svChars x ++ ',' :: svElems (y :: ys) from rfl]
      rw [List.append_assoc, List.cons_append, parseElems,
        parseVal_sv x g (',' :: (svElems (y :: ys) ++ ']' :: rest)) hfx
          (by cases x <;> simp [safeRest, noDigitHead])]
      simp only [Option.some_bind, sepStep_rb_sep]
      have hfe : fuelElems (y :: ys) ≤ g := by
        rw [show fuelElems (x :: y :: ys) = 1 + fuelV x + fuelElems (y :: ys) from rfl] at hfuel
        omega
      rw [parseElems_sv y ys g rest hfe]
      rfl
termination_by x xs _ _ _ => sizeOf (x :: xs)

/-- Round trip for one or more printed object members up to the brace. -/
theorem parseFields_sv : ∀ (f : String × Json) (fs : List (String × Json)) (fuel : Nat)
    (rest : List Char), fuelFields (f :: fs) ≤ fuel →
    parseFields fuel (svFields (f :: fs) ++ '}' :: rest) = some (f :: fs, rest)
  | (k, v), fs, fuel, rest, hfuel => by
    obtain ⟨g, rfl⟩ : ∃ g, fuel = g + 1 := by
      rw [show fuelFields ((k, v) :: fs) = 1 + fuelV v + fuelFields fs from rfl] at hfuel
      exact ⟨fuel - 1, by omega⟩
    have hfv : fuelV v ≤ g := by
      rw [show fuelFields ((k, v) :: fs) = 1 + fuelV v + fuelFields fs from rfl] at hfuel
      omega
    cases fs with
    | nil =>
      rw [show svFields [(k, v)] = '"' :: (escapeList k.toList ++ '"' :: ':' :: svChars v)
        from rfl]
      rw [List.cons_append, parseFields]
      rw [show (escapeList k.toList ++ '"' :: ':' :: svChars v) ++ '}' :: rest
        = escapeList k.toList ++ '"' :: (':' :: (svChars v ++ '}' :: rest)) by simp]
      rw [parseKey_sv]
      simp only [Option.some_bind]
      rw [parseVal_sv v g ('}' :: rest) hfv (by cases v <;> simp [safeRest, noDigitHead])]
      simp only [Option.some_bind, sepStep_cb_close]
      rfl
    | cons h hs =>
      rw [show svFields ((k, v) :: h :: hs)
        = ('"' :: (escapeList k.toList ++ '"' :: ':' :: svChars v)) ++ ',' :: svFields (h :: hs)
        from rfl]
      rw [parseFields]
      simp only [List.cons_append, List.append_assoc]
      rw [parseKey_sv]
      simp only [Option.some_bind]
      rw [parseVal_sv v g (',' :: (svFields (h :: hs) ++ '}' :: rest)) hfv
        (by cases v <;> simp [safeRest, noDigitHead])]
      simp only [Option.some_bind, sepStep_cb_sep]
      have hff : fuelFields (h :: hs) ≤ g := by
        rw [show fuelFields ((k, v) :: h :: hs) = 1 + fuelV v + fuelFields (h :: hs)
          from rfl] at hfuel
        omega
      rw [parseFields_sv h hs g rest hff]
      rfl
termination_by f fs _ _ _ => sizeOf (f :: fs)

end

mutual

/-- The fuel a value needs is at most the length of its printed form. -/
theorem fuelV_le : ∀ v : Json, fuelV v ≤ (svChars v).length
  | .null => by decide
  | .bool true => by decide
  | .bool false => by decide
  | .num i => by
    rw [show fuelV (.num i) = 1 from rfl]
    have h2 : (svChars (.num i)).length ≥ 1 := by
      rw [show svChars (.num i) = intChars i from rfl, intChars]
      split
      · simp
      · rw [digitChars_eq]
        rcases hd : digitsSpec i.toNat with _ | ⟨c, t⟩
        · exact absurd hd (digitsSpec_ne_nil _)
        · simp
    omega
  | .str s => by
    rw [show fuelV (.str s) = 1 from rfl,
      show svChars (.str s) = '"' :: (escapeList s.toList ++ ['"']) from rfl]
    simp
  | .arr [] => by decide
  | .arr (x :: xs) => by
    rw [show fuelV (.arr (x :: xs)) = 1 + fuelElems (x :: xs) from rfl,
      show svChars (.arr (x :: xs)) = '[' :: (svElems (x :: xs) ++ [']']) from rfl]
    have := fuelElems_le x xs
    simp only [List.length_cons, List.length_append, List.length_singleton]
    omega
  | .obj [] => by decide
  | .obj (f :: fs) => by
    rw [show fuelV (.obj (f :: fs)) = 1 + fuelFields (f :: fs) from rfl,
      show svChars (.obj (f :: fs)) = '{' :: (svFields (f :: fs) ++ ['}']) from rfl]
    have := fuelFields_le f fs
    simp only [List.length_cons, List.length_append, List.length_singleton]
    omega
termination_by v => sizeOf v

theorem fuelElems_le : ∀ (x : Json) (xs : List Json),
    fuelElems (x :: xs) ≤ (svElems (x :: xs)).length + 1
  | x, [] => by
    rw [show fuelElems [x] = 1 + fuelV x + fuelElems [] from rfl,
      show fuelElems ([] : List Json) = 0 from rfl,
      show svElems [x] = svChars x from rfl]
    have := fuelV_le x
    omega
  | x, y :: ys => by
    rw [show fuelElems (x :: y :: ys) = 1 + fuelV x + fuelElems (y :: ys) from rfl,
      show svElems (x :: y :: ys) = svChars x ++ ',' :: svElems (y :: ys) from rfl]
    have h1 := fuelV_le x
    have h2 := fuelElems_le y ys
    simp only [List.length_append, List.length_cons]
    omega
termination_by x xs => sizeOf (x :: xs)

theorem fuelFields_le : ∀ (f : String × Json) (fs : List (String × Json)),
    fuelFields (f :: fs) ≤ (svFields (f :: fs)).length + 1
  | (k, v), [] => by
    rw [show fuelFields [(k, v)] = 1 + fuelV v + fuelFields [] from rfl,
      show fuelFields ([] : List (String × Json)) = 0 from rfl,
      show svFields [(k, v)] = '"' :: (escapeList k.toList ++ '"' :: ':' :: svChars v)
        from rfl]
    have := fuelV_le v
    simp only [List.length_cons, List.length_append]
    omega
  | (k, v), h :: hs => by
    rw [show fuelFields ((k, v) :: h :: hs) = 1 + fuelV v + fuelFields (h :: hs) from rfl,
      show svFields ((k, v) :: h :: hs)
        = ('"' :: (escapeList k.toList ++ '"' :: ':' :: svChars v)) ++ ',' :: svFields (h :: hs)
        from rfl]
    have h1 := fuelV_le v
    have h2 := fuelFields_le h hs
    simp only [List.length_cons, List.length_append]
    omega
termination_by f fs => sizeOf (f :: fs)

end

theorem safeRest_nil (v : Json) : safeRest v [] := by
  cases v <;> simp [safeRest, noDigitHead]

/-- The model of `JSON.parse` inverts the model of `JSON.stringify`. -/
theorem jsParse_sv (v : Json) : jsParse (svChars v) = some v := by
  have h := parseVal_sv v ((svChars v).length + 1) []
    (by have := fuelV_le v; omega) (safeRest_nil v)
  rw [List.append_nil] at h
  rw [jsParse, h]
  rfl

/-! ## `parseAgentResponseText`: the resilient structured-output parser -/

/-- `JSON.parse` wrapped in try/catch (`tryParse` in the source): the parsed
value, or `null` — the same value JavaScript uses for failure. -/
def tryParse (cs : List Char) : Json := (jsParse cs).getD .null

/-- JavaScript `String.prototype.trim` over characters. -/
def trimChars (cs : List Char) : List Char :=
  ((cs.dropWhile isWsChar).reverse.dropWhile isWsChar).reverse

/-- Case-insensitive literal match; the remainder on success. -/
def matchLitCI (lit : List Char) (cs : List Char) : Option (List Char) :=
  if (cs.take lit.length).map Char.toLower = lit then some (cs.drop lit.length) else none

/-- The regex fragment `.?` (greedy, `.` excludes a newline), in
continuation-passing style so the optional character can backtrack. -/
def optAnyNoNl (k : List Char → Option (List Char)) : List Char → Option (List Char)
  | [] => k []
  | c :: rest =>
    if c = '\n' then k (c :: rest)
    else
      match k rest with
      | some r => some r
      | none => k (c :: rest)

/-- The regex fragment `[:\s]*` (greedy). -/
def dropColonWs (cs : List Char) : List Char := cs.dropWhile (fun c => c = ':' || isWsChar c)

/-- The anchored replace of `/^[\s\n]*here.?is.?the.?json.?[:\s]*/i` with the
empty string: the remainder after a matched preamble, or the text unchanged. -/
def stripHere (cs : List Char) : List Char :=
  let cs0 := cs.dropWhile isWsChar
  let attempt :=
    (matchLitCI ['h', 'e', 'r', 'e'] cs0).bind (optAnyNoNl (fun r1 =>
      (matchLitCI ['i', 's'] r1).bind (optAnyNoNl (fun r2 =>
        (matchLitCI ['t', 'h', 'e'] r2).bind (optAnyNoNl (fun r3 =>
          (matchLitCI ['j', 's', 'o', 'n'] r3).bind (optAnyNoNl (fun r4 =>
            some (dropColonWs r4)))))))))
  match attempt with
  | some r => r
  | none => cs

/-- The anchored replace of `/^[\s\n]*json[:\s]*/i` with the empty string. -/
def stripJsonWord (cs : List Char) : List Char :=
  match matchLitCI ['j', 's', 'o', 'n'] (cs.dropWhile isWsChar) with
  | some r => dropColonWs r
  | none => cs

/-- Do the characters start with a triple backtick? -/
def tick3 (cs : List Char) : Bool :=
  match cs with
  | a :: b :: c :: _ => a = '`' && b = '`' && c = '`'
  | _ => false

/-- Split at the first triple backtick: the characters before it and the
characters after it. -/
def splitAtTick : List Char → Option (List Char × List Char)
  | [] => none
  | c :: cs =>
    if tick3 (c :: cs) then some ([], (c :: cs).drop 3)
    else (splitAtTick cs).map (fun p => (c :: p.1, p.2))

/-- After an opening fence: the optional case-insensitive `json` tag, then
whitespace (the regex `(?:json)?\s*`). -/
def fenceBody (cs : List Char) : List Char :=
  match matchLitCI ['j', 's', 'o', 'n'] cs with
  | some r => r.dropWhile isWsChar
  | none => cs.dropWhile isWsChar

/-- The capture of the LAST-fence regex
`/\x60\x60\x60(?:json)?\s*([\s\S]*?)\s*\x60\x60\x60[\s\S]*$/i`: leftmost opening
fence that has a closing fence after it; the lazy capture with the
surrounding `\s*` absorbed is the trimmed content between the two. -/
def method2Extract : List Char → Option (List Char)
  | [] => none
  | c :: cs =>
    if tick3 (c :: cs) then
      match splitAtTick (fenceBody ((c :: cs).drop 3)) with
      | some p => some (trimChars p.1)
      | none => method2Extract cs
    else method2Extract cs

/-- All fenced blocks, as `matchAll` pairs them (non-overlapping, scanning
resumes after each closing fence).  The fuel is structural; every step
consumes at least one character, so `length + 1` is always enough. -/
def allFences : Nat → List Char → List (List Char)
  | 0, _ => []
  | _ + 1, [] => []
  | fuel + 1, c :: cs =>
    if tick3 (c :: cs) then
      match splitAtTick (fenceBody ((c :: cs).drop 3)) with
      | some p => trimChars p.1 :: allFences fuel p.2
      | none => allFences fuel cs
    else allFences fuel cs

/-- Method 3's loop body: try each fence content (already reversed to run
from the last), skipping empty ones, returning the first truthy parse. -/
def tryFences : List (List Char) → Option Json
  | [] => none
  | content :: rest =>
    if content = [] then tryFences rest
    else
      if truthy (tryParse content) then some (tryParse content) else tryFences rest

/-- `String.prototype.indexOf` for one character. -/
def indexOfChar (ch : Char) : List Char → Option Nat
  | [] => none
  | c :: cs => if c = ch then some 0 else (indexOfChar ch cs).map (· + 1)

/-- `String.prototype.lastIndexOf` for one character. -/
def lastIndexOfChar (ch : Char) (cs : List Char) : Option Nat :=
  (indexOfChar ch cs.reverse).map (fun i => cs.length - 1 - i)

/-- `String.prototype.slice(a, b)` (with `0 ≤ a ≤ b`). -/
def sliceChars (cs : List Char) (a b : Nat) : List Char := (cs.take b).drop a

/-- Merge consecutive spaces into one. -/
def dedupSpaces : List Char → List Char
  | [] => []
  | [c] => [c]
  | a :: b :: t =>
    if a = ' ' ∧ b = ' ' then dedupSpaces (b :: t) else a :: dedupSpaces (b :: t)

/-- The composite `.replace(/[\r\n]+/g, " ").replace(/\s+/g, " ").trim()`:
every whitespace run becomes one space, and the ends are trimmed. -/
def collapseWs (cs : List Char) : List Char :=
  trimChars (dedupSpaces (cs.map (fun c => if isWsChar c then ' ' else c)))

/-- Method 2: the last ```json fence, preamble stripped, kept if truthy. -/
def method2Try (text : List Char) : Option Json :=
  match method2Extract text with
  | none => none
  | some captured =>
    if captured = [] then none
    else
      if truthy (tryParse (trimChars (stripJsonWord (stripHere (trimChars captured))))) then
        some (tryParse (trimChars (stripJsonWord (stripHere (trimChars captured)))))
      else none

/-- Method 4: the substring from the first `[` to the last `]`, if the two
exist in that order, kept if truthy. -/
def method4Try (text : List Char) : Option Json :=
  match indexOfChar '[' text, lastIndexOfChar ']' text with
  | some fb, some lb =>
    if fb < lb then
      if truthy (tryParse (sliceChars text fb (lb + 1))) then
        some (tryParse (sliceChars text fb (lb + 1)))
      else none
    else none
  | _, _ => none

/-- Method 5: the substring from the first `{` to the last `}`, raw and then
whitespace-collapsed; `null` when both fail. -/
def method5Try (text : List Char) : Json :=
  match indexOfChar '{' text, lastIndexOfChar '}' text with
  | some fb, some lb =>
    if fb < lb then
      if truthy (tryParse (sliceChars text fb (lb + 1))) then
        tryParse (sliceChars text fb (lb + 1))
      else
        if truthy (tryParse (collapseWs (sliceChars text fb (lb + 1)))) then
          tryParse (collapseWs (sliceChars text fb (lb + 1)))
        else Json.null
    else Json.null
  | _, _ => Json.null

/-- `parseAgentResponseText` (the battle-tested JSON parser of the source):
five methods tried in order — direct parse, last code fence, all code
fences from the last, bracket extraction, brace extraction (raw then
whitespace-collapsed) — each result kept only if truthy, `null` otherwise. -/
def parseAgentCore (text : List Char) : Json :=
  -- Method 1: direct parse
  if truthy (tryParse text) then tryParse text
  else
    -- Method 2: extract from the LAST ```json fence
    match method2Try text with
    | some r => r
    | none =>
      -- Method 3: find ALL code blocks and try each (reverse order)
      match tryFences ((allFences (text.length + 1) text).reverse) with
      | some r => r
      | none =>
        -- Method 4: bracket matching (arrays)
        match method4Try text with
        | some r => r
        | none =>
          -- Method 5: brace matching (objects), raw then cleaned
          method5Try text

def parseAgentResponseText (rawText : String) : Json :=
  parseAgentCore (trimChars rawText.toList)

/-! ## Facts about `parseAgentResponseText` -/

theorem digitsSpec_last (n : Nat) :
    ∃ d, d < 10 ∧ ∃ t, digitsSpec n = t ++ [digitChar d] := by
  rw [digitsSpec]
  by_cases h : n < 10
  · exact ⟨n, h, [], by simp [h]⟩
  · exact ⟨n % 10, Nat.mod_lt _ (by omega), digitsSpec (n / 10), by simp [h]⟩

theorem isWsChar_digitChar {d : Nat} (h : d < 10) : isWsChar (digitChar d) = false := by
  interval_cases d <;> decide

/-- The last character of a printed value is never whitespace. -/
theorem svChars_last (v : Json) :
    ∃ c t, svChars v = t ++ [c] ∧ isWsChar c = false := by
  cases v with
  | null => exact ⟨'l', ['n', 'u', 'l'], rfl, by decide⟩
  | bool b => cases b with
    | true => exact ⟨'e', ['t', 'r', 'u'], rfl, by decide⟩
    | false => exact ⟨'e', ['f', 'a', 'l', 's'], rfl, by decide⟩
  | num i =>
    rw [show svChars (.num i) = intChars i from rfl, intChars]
    by_cases hneg : i < 0
    · rw [if_pos hneg, digitChars_eq]
      obtain ⟨d, hd, t, ht⟩ := digitsSpec_last i.natAbs
      exact ⟨digitChar d, '-' :: t, by rw [ht]; rfl, isWsChar_digitChar hd⟩
    · rw [if_neg hneg, digitChars_eq]
      obtain ⟨d, hd, t, ht⟩ := digitsSpec_last i.toNat
      exact ⟨digitChar d, t, ht, isWsChar_digitChar hd⟩
  | str s =>
    exact ⟨'"', '"' :: escapeList s.toList, by
      rw [show svChars (.str s) = '"' :: (escapeList s.toList ++ ['"']) from rfl]; rfl,
      by decide⟩
  | arr xs => cases xs with
    | nil => exact ⟨']', ['['], rfl, by decide⟩
    | cons x xs =>
      exact ⟨']', '[' :: svElems (x :: xs), by
        rw [show svChars (.arr (x :: xs)) = '[' :: (svElems (x :: xs) ++ [']']) from rfl]
        rfl, by decide⟩
  | obj fs => cases fs with
    | nil => exact ⟨'}', ['{'], rfl, by decide⟩
    | cons f fs =>
      exact ⟨'}', '{' :: svFields (f :: fs), by
        rw [show svChars (.obj (f :: fs)) = '{' :: (svFields (f :: fs) ++ ['}']) from rfl]
        rfl, by decide⟩

/-- Trimming is the identity on text with no whitespace at either end. -/
theorem trimChars_self (cs : List Char)
    (h1 : ∀ c, cs.head? = some c → isWsChar c = false)
    (h2 : ∀ c, cs.getLast? = some c → isWsChar c = false) :
    trimChars cs = cs := by
  cases cs with
  | nil => rfl
  | cons a t =>
    have ha : isWsChar a = false := h1 a rfl
    have hdw1 : List.dropWhile isWsChar (a :: t) = a :: t := by
      rw [List.dropWhile_cons, ha]
      simp
    rcases hrev : (a :: t).reverse with _ | ⟨b, u⟩
    · exact absurd hrev (by simp)
    · have hb : (a :: t).getLast? = some b := by
        rw [← List.head?_reverse, hrev]
        rfl
      have hdw2 : List.dropWhile isWsChar (b :: u) = b :: u := by
        rw [List.dropWhile_cons, h2 b hb]
        simp
      rw [trimChars, hdw1, hrev, hdw2, ← hrev, List.reverse_reverse]

theorem trimChars_sv (v : Json) : trimChars (svChars v) = svChars v := by
  apply trimChars_self
  · intro c hc
    obtain ⟨c', t', hct, hws, -, -, -⟩ := svChars_head v
    rw [hct] at hc
    cases hc
    exact hws
  · intro c hc
    obtain ⟨c', t', hct, hws⟩ := svChars_last v
    rw [hct, List.getLast?_concat] at hc
    cases hc
    exact hws

theorem tryFences_truthy : ∀ (l : List (List Char)) (r : Json),
    tryFences l = some r → truthy r = true := by
  intro l
  induction l with
  | nil => intro r h; exact absurd h (by simp [tryFences])
  | cons c rest ih =>
    intro r h
    rw [tryFences] at h
    split at h
    · exact ih r h
    · split at h
      · rename_i ht
        rw [Option.some.injEq] at h
        rw [← h]
        exact ht
      · exact ih r h

theorem method2Try_truthy (t : List Char) (r : Json) :
    method2Try t = some r → truthy r = true := by
  intro h
  rw [method2Try] at h
  split at h
  · exact absurd h (by simp)
  · split at h
    · exact absurd h (by simp)
    · split at h
      · rename_i ht
        rw [Option.some.injEq] at h
        rw [← h]
        exact ht
      · exact absurd h (by simp)

theorem method4Try_truthy (t : List Char) (r : Json) :
    method4Try t = some r → truthy r = true := by
  intro h
  rw [method4Try] at h
  split at h
  · rename_i fb lb
    split at h
    · split at h
      · rename_i ht
        rw [Option.some.injEq] at h
        rw [← h]
        exact ht
      · exact absurd h (by simp)
    · exact absurd h (by simp)
  · exact absurd h (by simp)

theorem method5Try_null_or_truthy (t : List Char) :
    method5Try t = Json.null ∨ truthy (method5Try t) = true := by
  rw [method5Try]
  split
  · rename_i fb lb
    split
    · split
      · rename_i ht
        exact Or.inr ht
      · split
        · rename_i ht
          exact Or.inr ht
        · exact Or.inl rfl
    · exact Or.inl rfl
  · exact Or.inl rfl

/-- The parser reports failure as a value: it returns either the definitive
`null` or a truthy value that one of its five methods produced. -/
theorem parseAgentCore_null_or_truthy (t : List Char) :
    parseAgentCore t = Json.null ∨ truthy (parseAgentCore t) = true := by
  rw [parseAgentCore]
  split
  · rename_i h
    exact Or.inr h
  · split
    · rename_i r heq
      exact Or.inr (method2Try_truthy _ r heq)
    · split
      · rename_i r heq
        exact Or.inr (tryFences_truthy _ r heq)
      · split
        · rename_i r heq
          exact Or.inr (method4Try_truthy _ r heq)
        · exact method5Try_null_or_truthy _

/-- The parser reports failure as a value: it returns either the definitive
`null` or a truthy value that one of its five methods produced. -/
theorem parseAgentResponseText_null_or_truthy (s : String) :
    parseAgentResponseText s = Json.null ∨ truthy (parseAgentResponseText s) = true :=
  parseAgentCore_null_or_truthy _

/-- Round trip through the first method: for every truthy value, parsing the
stringified form returns the value itself. -/
theorem parseAgentResponseText_stringify (v : Json) (hv : truthy v = true) :
    parseAgentResponseText (stringifyJson v) = v := by
  rw [parseAgentResponseText]
  rw [show (stringifyJson v).toList = svChars v from rfl, trimChars_sv, parseAgentCore]
  rw [show tryParse (svChars v) = v by rw [tryParse, jsParse_sv]; rfl]
  rw [if_pos hv]

/-! ## Pipeline data model (from the presentation-generation function) -/

/-- `SlideOutline` of the source: a planned unit of output. -/
structure SlideOutline where
  order : Nat
  layoutId : String
  title : String
  purpose : String
  keyContent : List String
  imagePrompt : Option String := none
deriving DecidableEq

/-- One `{regionId, type, data}` triple of a slide's `content` array. -/
structure SlideContent where
  regionId : String
  type : String
  data : Json
deriving DecidableEq

/-- `GeneratedSlide` of the source: the realized content for one outline
item.  Optional string fields are `Option` (absent/falsy ≙ `none`). -/
structure GeneratedSlide where
  id : String
  order : Nat
  layoutId : String
  title : String
  subtitle : Option String := none
  content : List SlideContent
  notes : Option String := none
  imageUrl : Option String := none
  imagePrompt : Option String := none
deriving DecidableEq

/-- `BlackboardEntry` of the source.  `category` is one of the seven literal
strings the source uses. -/
structure BlackboardEntry where
  id : String
  timestamp : String
  source : String
  category : String
  content : String
  data : Option Json := none
deriving DecidableEq

/-- A named server-sent event on the response stream. -/
inductive StreamEvent where
  | status (phase message : String)
  | blackboard (e : BlackboardEntry)
  | slide (s : GeneratedSlide)
  | complete
  | error (message : String)
deriving DecidableEq

/-- JavaScript template `${n}` for a number, and `.slice(0, n)` for a string. -/
def takeStr (n : Nat) (s : String) : String := ⟨s.toList.take n⟩

/-- `Array.prototype.join(sep)`. -/
def joinStrings (sep : String) : List String → String
  | [] => ""
  | [s] => s
  | s :: t :: rest => s ++ sep ++ joinStrings sep (t :: rest)

/-! ## `generateSlideOutline`: count enforcement (padding and truncation) -/

/-- The fixed layout rotation used while padding. -/
def paddingLayouts : List String := ["bullets", "title-content", "image-right", "stats-grid"]

structure PaddingTopic where
  title : String
  purpose : String
  keyContent : List String
deriving DecidableEq

/-- The fixed pool of generic topic templates used while padding. -/
def paddingTopics : List PaddingTopic :=
  [⟨"Additional Insights", "Further observations from the project data",
    ["Project insights", "Key observations"]⟩,
   ⟨"Technical Details", "More technical context",
    ["Implementation details", "Technical considerations"]⟩,
   ⟨"Stakeholder Benefits", "Value proposition for stakeholders",
    ["Business value", "User benefits"]⟩,
   ⟨"Quality Assurance", "Testing and validation approach",
    ["Testing strategy", "Quality metrics"]⟩,
   ⟨"Team & Resources", "Team composition and resources",
    ["Team structure", "Resource allocation"]⟩,
   ⟨"Future Vision", "Long-term vision and goals",
    ["Long-term goals", "Future enhancements"]⟩]

/-- The `while (parsed.length < targetSlides)` padding loop.  The fuel is
structural; `targetSlides - parsed.length` iterations always suffice since
every iteration appends one outline.  `existingTitles` models the JS `Set`
of titles (membership only). -/
def padLoop (targetSlides : Nat) : Nat → List String → List SlideOutline → List SlideOutline
  | 0, _, parsed => parsed
  | fuel + 1, existingTitles, parsed =>
    if parsed.length < targetSlides then
      padLoop targetSlides fuel
        ((if existingTitles.contains
              (paddingTopics.get ⟨parsed.length % 6, by exact Nat.mod_lt _ (by decide)⟩).title
          then (paddingTopics.get ⟨parsed.length % 6,
                  by exact Nat.mod_lt _ (by decide)⟩).title
                 ++ " (" ++ toString parsed.length ++ ")"
          else (paddingTopics.get ⟨parsed.length % 6,
                  by exact Nat.mod_lt _ (by decide)⟩).title) :: existingTitles)
        (parsed ++ [{ order := parsed.length + 1,
                      layoutId := paddingLayouts.get ⟨parsed.length % 4,
                        by exact Nat.mod_lt _ (by decide)⟩,
                      title :=
                        if existingTitles.contains
                            (paddingTopics.get ⟨parsed.length % 6,
                              by exact Nat.mod_lt _ (by decide)⟩).title
                        then (paddingTopics.get ⟨parsed.length % 6,
                                by exact Nat.mod_lt _ (by decide)⟩).title
                               ++ " (" ++ toString parsed.length ++ ")"
                        else (paddingTopics.get ⟨parsed.length % 6,
                                by exact Nat.mod_lt _ (by decide)⟩).title,
                      purpose := (paddingTopics.get ⟨parsed.length % 6,
                        by exact Nat.mod_lt _ (by decide)⟩).purpose,
                      keyContent := (paddingTopics.get ⟨parsed.length % 6,
                        by exact Nat.mod_lt _ (by decide)⟩).keyContent }])
    else parsed

/-- The count-enforcement tail of `generateSlideOutline` (after the parsed
model response has been checked to be an array): pad cyclically when short,
truncate when long, then reassign `order` to position + 1. -/
def enforceOutlineCount (targetSlides : Nat) (parsed0 : List SlideOutline) : List SlideOutline :=
  let parsed :=
    if parsed0.length < targetSlides then
      padLoop targetSlides (targetSlides - parsed0.length) (parsed0.map (fun s => s.title)) parsed0
    else if parsed0.length > targetSlides then parsed0.take targetSlides
    else parsed0
  parsed.mapIdx (fun i s => { s with order := i + 1 })

/-! ## `buildStoryStructure`: deterministic slide allocation -/

/-- The fixed narrative sections: name, purpose, minSlides, maxSlides. -/
def sectionDefs : List (String × String × Nat × Nat) :=
  [("Opening", "Set the stage and capture attention", 2, 3),
   ("Context & Problem", "Explain why this project exists", 1, 3),
   ("Solution Overview", "High-level what we're building", 1, 2),
   ("Requirements Deep Dive", "Key functional requirements", 2, 4),
   ("Architecture", "Technical design and components", 1, 3),
   ("Implementation Status", "Current progress and metrics", 1, 2),
   ("Risks & Challenges", "What could go wrong and mitigations", 1, 2),
   ("Next Steps", "Roadmap and call to action", 1, 2)]

/-- First pass: assign each section its minimum, capped by the remaining
budget; returns `(slideCount, maxSlides)` pairs and the remaining budget. -/
def firstPass : List (String × String × Nat × Nat) → Nat → List (Nat × Nat) × Nat
  | [], remaining => ([], remaining)
  | (_, _, minS, maxS) :: rest, remaining =>
    let count := min minS remaining
    let p := firstPass rest (remaining - count)
    ((count, maxS) :: p.1, p.2)

/-- One sweep of the second pass: grant +1 to each section below its max
while the budget lasts. -/
def sweepOnce : List (Nat × Nat) → Nat → List (Nat × Nat) × Nat
  | [], remaining => ([], remaining)
  | (c, m) :: rest, remaining =>
    if remaining > 0 ∧ c < m then
      let p := sweepOnce rest (remaining - 1)
      ((c + 1, m) :: p.1, p.2)
    else
      let p := sweepOnce rest remaining
      ((c, m) :: p.1, p.2)

/-- The `while (remainingSlides > 0)` loop with its source guard
`if (remainingSlides === targetSlides) break`.  The source has no fuel; the
model returns `none` when the given fuel runs out, so divergence of the
source loop is `∀ fuel, ... = none`. -/
def distributeLoop (targetSlides : Nat) : Nat → List (Nat × Nat) → Nat → Option (List (Nat × Nat))
  | 0, _, _ => none
  | fuel + 1, counts, remaining =>
    if remaining > 0 then
      let p := sweepOnce counts remaining
      if p.2 = targetSlides then some p.1
      else distributeLoop targetSlides fuel p.1 p.2
    else some counts

/-- A resolved story-structure entry (the source's record with its
`section` field renamed `sectionName`, `section` being a Lean keyword). -/
structure StorySection where
  sectionName : String
  slideCount : Nat
  layouts : List String
  purpose : String
deriving DecidableEq

/-- Recommended layouts per section. -/
def layoutSuggestions : List (String × List String) :=
  [("Opening", ["title-cover", "quote"]),
   ("Context & Problem", ["title-content", "image-right", "bullets"]),
   ("Solution Overview", ["image-left", "title-content", "stats-grid"]),
   ("Requirements Deep Dive", ["bullets", "two-column", "icon-grid", "comparison"]),
   ("Architecture", ["architecture", "image-left", "title-content"]),
   ("Implementation Status", ["stats-grid", "timeline", "bullets"]),
   ("Risks & Challenges", ["two-column", "bullets", "comparison"]),
   ("Next Steps", ["timeline", "bullets", "quote"])]

/-- `buildStoryStructure(targetSlides, mode)` with explicit fuel for its
redistribution loop (`mode` is accepted and unused, as in the source). -/
def buildStoryStructureFuel (fuel targetSlides : Nat) (mode : String) :
    Option (List StorySection) :=
  match distributeLoop targetSlides fuel (firstPass sectionDefs targetSlides).1
      (firstPass sectionDefs targetSlides).2 with
  | none => none
  | some counts =>
    some ((((sectionDefs.zip counts).map (fun p =>
      { sectionName := p.1.1,
        slideCount := p.2.1,
        layouts := (layoutSuggestions.lookup p.1.1).getD ["title-content", "bullets"],
        purpose := p.1.2.1 : StorySection }))).filter (fun s => s.slideCount > 0))

/-! ## `getLayoutRegions` and the regions a layout declares -/

/-- The `layoutRegions` record of the source, as an association list. -/
def layoutRegions : List (String × String) :=
  [("title-cover", "background(image), title(heading), subtitle(text), date(text)"),
   ("section-divider", "section-number(heading), title(heading), subtitle(text)"),
   ("title-content", "title(heading), content(richtext)"),
   ("two-column", "title(heading), left-content(richtext), right-content(richtext)"),
   ("image-left", "title(heading), image(image), content(richtext)"),
   ("image-right", "title(heading), content(richtext), image(image)"),
   ("stats-grid", "title(heading), stat-1(stat), stat-2(stat), stat-3(stat), stat-4(stat)"),
   ("bullets", "title(heading), bullets(bullets)"),
   ("quote", "quote(text), attribution(text)"),
   ("architecture", "title(heading), diagram(image)"),
   ("comparison",
    "title(heading), left-header(heading), right-header(heading), left-content(bullets), right-content(bullets)"),
   ("timeline", "title(heading), timeline(timeline)"),
   ("icon-grid", "title(heading), subtitle(text), grid(icon-grid)"),
   ("table", "title(heading), table(table)"),
   ("chart-full", "title(heading), chart(chart)")]

def getLayoutRegions (layoutId : String) : String :=
  (layoutRegions.lookup layoutId).getD "title(heading), content(richtext)"

/-- Split on the literal separator `", "`. -/
def splitCommaSp : List Char → List (List Char)
  | [] => [[]]
  | ',' :: ' ' :: rest => [] :: splitCommaSp rest
  | c :: rest =>
    match splitCommaSp rest with
    | [] => [[c]]
    | g :: gs => (c :: g) :: gs

/-- The region ids a layout declares: the names before the parentheses in
the `getLayoutRegions` description string. -/
def layoutRegionIds (layoutId : String) : List String :=
  (splitCommaSp (getLayoutRegions layoutId).toList).map
    (fun part => ⟨part.takeWhile (fun c => !(c = '('))⟩)

/-- The invariant the data model states for a slide: every content entry
targets a region declared for the slide's layout. -/
def slideRegionsValid (s : GeneratedSlide) : Prop :=
  ∀ c ∈ s.content, c.regionId ∈ layoutRegionIds s.layoutId

instance (s : GeneratedSlide) : Decidable (slideRegionsValid s) := by
  unfold slideRegionsValid
  infer_instance

/-! ## `generateSingleSlide` (post-parse normalization) and the fallback -/

/-- The fields the source reads off the parsed model object.  A field is
`none` when absent or falsy; `content` is `none` when not an array. -/
structure ParsedSlide where
  id : Option String := none
  title : Option String := none
  subtitle : Option String := none
  content : Option (List SlideContent) := none
  notes : Option String := none
  imagePrompt : Option String := none
deriving DecidableEq

/-- The `Ensure required fields` normalization of `generateSingleSlide`:
the slide built from the parsed object, the outline item and a freshly
generated id. -/
def normalizeSlide (freshId : String) (outline : SlideOutline) (parsed : ParsedSlide) :
    GeneratedSlide :=
  { id := parsed.id.getD freshId,
    order := outline.order,
    layoutId := outline.layoutId,
    title := parsed.title.getD outline.title,
    subtitle := parsed.subtitle,
    content := parsed.content.getD [],
    notes := some (parsed.notes.getD outline.purpose),
    imagePrompt :=
      match outline.imagePrompt with
      | some p => some p
      | none => parsed.imagePrompt }

/-- `createFallbackSlide` of the source: a single `content` region rendering
the outline's key content as emphasized text. -/
def createFallbackSlide (freshId : String) (outline : SlideOutline) : GeneratedSlide :=
  { id := freshId,
    order := outline.order,
    layoutId := outline.layoutId,
    title := outline.title,
    content := [{ regionId := "content", type := "richtext",
                  data := Json.obj [("text",
                    Json.str (joinStrings "\n\n"
                      (outline.keyContent.map (fun kc => "**" ++ kc ++ "**"))))] }],
    notes := some outline.purpose,
    imagePrompt := outline.imagePrompt }

/-! ## The slide-generation loop (streaming, fallback, checkpoints) -/

/-- The outcome of one `generateSingleSlide` call: a parsed object, or any
failure (fetch error or non-object parse result) that reaches the catch. -/
inductive GenOutcome where
  | ok (parsed : ParsedSlide)
  | fail
deriving DecidableEq

def GenOutcome.isOk : GenOutcome → Bool
  | .ok _ => true
  | .fail => false

/-- The state the loop threads: the slide list, the stream events emitted so
far, and every slide list passed to a checkpoint persist call, in order. -/
structure GenLoopState where
  slides : List GeneratedSlide
  events : List StreamEvent
  saves : List (List GeneratedSlide)
deriving DecidableEq

/-- The source's checkpoint condition `(i + 1) % 3 === 0 || i === slideOutline.length - 1`. -/
def checkpointAt (total i : Nat) : Bool := (i + 1) % 3 = 0 || i = total - 1

/-- One iteration of the slide-generation loop: status event, then either a
normalized model slide (streamed, checkpointed on the boundary) or the
fallback slide (streamed, not checkpointed — the save sits inside `try`). -/
def genStep (total : Nat) (oracle : Nat → GenOutcome) (idGen : Nat → String)
    (i : Nat) (o : SlideOutline) (st : GenLoopState) : GenLoopState :=
  let st1 : GenLoopState :=
    { st with events := st.events ++ [.status "generating_slides"
        ("Generating slide " ++ toString (i + 1) ++ "/" ++ toString total
          ++ ": \"" ++ o.title ++ "\"")] }
  match oracle i with
  | .ok parsed =>
    let slide := normalizeSlide (idGen i) o parsed
    let slides' := st1.slides ++ [slide]
    { slides := slides',
      events := st1.events ++ [.slide slide],
      saves := if checkpointAt total i then st1.saves ++ [slides'] else st1.saves }
  | .fail =>
    let slide := createFallbackSlide (idGen i) o
    { slides := st1.slides ++ [slide],
      events := st1.events ++ [.slide slide],
      saves := st1.saves }

def genLoopAux (total : Nat) (oracle : Nat → GenOutcome) (idGen : Nat → String) :
    Nat → List SlideOutline → GenLoopState → GenLoopState
  | _, [], st => st
  | i, o :: rest, st => genLoopAux total oracle idGen (i + 1) rest (genStep total oracle idGen i o st)

/-- The full slide-generation loop over an outline list. -/
def runGenLoop (outlines : List SlideOutline) (oracle : Nat → GenOutcome)
    (idGen : Nat → String) : GenLoopState :=
  genLoopAux outlines.length oracle idGen 0 outlines ⟨[], [], []⟩

/-- The slide iteration `i` produces, by the branch the oracle selects. -/
def slideAt (oracle : Nat → GenOutcome) (idGen : Nat → String) (i : Nat)
    (o : SlideOutline) : GeneratedSlide :=
  match oracle i with
  | .ok parsed => normalizeSlide (idGen i) o parsed
  | .fail => createFallbackSlide (idGen i) o

/-- The slides the loop appends from position `i` over the remaining items. -/
def slidesFrom (oracle : Nat → GenOutcome) (idGen : Nat → String) :
    Nat → List SlideOutline → List GeneratedSlide
  | _, [] => []
  | i, o :: rest => slideAt oracle idGen i o :: slidesFrom oracle idGen (i + 1) rest

/-- The stream events the loop emits from position `i`. -/
def eventsFrom (total : Nat) (oracle : Nat → GenOutcome) (idGen : Nat → String) :
    Nat → List SlideOutline → List StreamEvent
  | _, [] => []
  | i, o :: rest =>
    .status "generating_slides"
        ("Generating slide " ++ toString (i + 1) ++ "/" ++ toString total
          ++ ": \"" ++ o.title ++ "\"")
      :: .slide (slideAt oracle idGen i o)
      :: eventsFrom total oracle idGen (i + 1) rest

/-- The checkpoint saves the loop issues from position `i`, `acc` being the
slide list already built. -/
def savesFrom (total : Nat) (oracle : Nat → GenOutcome) (idGen : Nat → String) :
    Nat → List SlideOutline → List GeneratedSlide → List (List GeneratedSlide)
  | _, [], _ => []
  | i, o :: rest, acc =>
    (if (oracle i).isOk ∧ checkpointAt total i
     then [acc ++ [slideAt oracle idGen i o]] else [])
      ++ savesFrom total oracle idGen (i + 1) rest (acc ++ [slideAt oracle idGen i o])

/-- The slide payload of a stream event, when it is a slide event. -/
def slideEvent? : StreamEvent → Option GeneratedSlide
  | .slide s => some s
  | _ => none

/-! ## The outline step of the orchestrator (model path and fallback path) -/

/-- The fixed 4-item fallback outline the orchestrator substitutes when
outline generation throws (cover, executive summary, status, insights). -/
def fallbackOutline (projectName : String) (completionScore reqCount : Nat)
    (blackboard : List BlackboardEntry) : List SlideOutline :=
  [{ order := 1, layoutId := "title-cover", title := projectName,
     purpose := "Cover slide", keyContent := [projectName] },
   { order := 2, layoutId := "quote", title := "Executive Summary",
     purpose := "Key takeaways",
     keyContent := [toString completionScore ++ "% complete",
                    toString reqCount ++ " requirements"] },
   { order := 3, layoutId := "stats-grid", title := "Project Status",
     purpose := "Current metrics",
     keyContent := ["Requirements", "Architecture", "Code", "Progress"] },
   { order := 4, layoutId := "bullets", title := "Key Insights",
     purpose := "Highlights from analysis",
     keyContent := ((blackboard.filter (fun e => e.category == "insight")).take 4).map
       (fun e => takeStr 50 e.content) }]

/-- The orchestrator's outline step: enforce the count on a parsed array
from the model, or substitute the fixed fallback when the outline call
threw (`none` ≙ fetch error or non-array parse result). -/
def outlineStep (targetSlides : Nat) (modelOutcome : Option (List SlideOutline))
    (projectName : String) (completionScore reqCount : Nat)
    (blackboard : List BlackboardEntry) : List SlideOutline :=
  match modelOutcome with
  | some parsed => enforceOutlineCount targetSlides parsed
  | none => fallbackOutline projectName completionScore reqCount blackboard

/-! ## `completionScore` -/

/-- The synthesis-phase completion score over the seven category counts
(`Math.round` of an integer sum is the sum itself). -/
def completionScore (reqCount nodeCount fileCount specCount artifactCount dbCount
    deployCount : Nat) : Nat :=
  min 100
    ((if reqCount > 0 then 15 else 0) +
     (if nodeCount > 0 then 20 else 0) +
     (if fileCount > 0 then 25 else 0) +
     (if specCount > 0 then 15 else 0) +
     (if artifactCount > 0 then 10 else 0) +
     (if dbCount > 0 then 8 else 0) +
     (if deployCount > 0 then 7 else 0))

/-! ## The start of the serve handler (stream prologue and the key check) -/

/-- An observable action of the serve handler: a stream event, a data-store
call, the abstracted rest of the pipeline, or closing the stream. -/
inductive StartAction where
  | emit (e : StreamEvent)
  | rpc (name : String)
  | runPipeline
  | closeStream
deriving DecidableEq

/-- The prologue of the serve handler, in source order: the `starting`
status event, the initial presentation status update, then the
`GEMINI_API_KEY` check — whose failure throws to the top-level catch, which
emits a single `error` event and closes the stream. -/
def serveStart (geminiKey : Option String) : List StartAction :=
  [.emit (.status "starting" "Initializing presentation agent..."),
   .rpc "update_presentation_with_token"] ++
  (match geminiKey with
   | none => [.emit (.error "GEMINI_API_KEY is not configured"), .closeStream]
   | some _ => [.runPipeline])

/-! ## `addToBlackboard` and `readSettings` -/

/-- The project row `readSettings` fetches.  Optional string fields are
`Option` (absent/empty handled as falsy by the source). -/
structure ProjSettings where
  name : String
  description : Option String
  created_at : String
  organization : Option String
deriving DecidableEq

/-- The run state the collectors share: the in-memory blackboard, the
stream, the count of per-entry persist calls issued, the entries the
persist rpc stored, and `collectedData.settings`. -/
structure RunState where
  blackboard : List BlackboardEntry
  events : List StreamEvent
  persistCount : Nat
  persisted : List BlackboardEntry
  settings : Option ProjSettings
deriving DecidableEq

/-- `addToBlackboard` of the source: push in memory, stream, then await the
per-entry persist rpc.  `persist n` is the oracle for the `n`-th rpc call:
`none` resolves, `some msg` rejects — the exception propagates after the
entry is already in memory and streamed. -/
def addToBlackboard (persist : Nat → Option String) (idGen : Nat → String)
    (timestamp source category content : String) (data : Option Json) (st : RunState) :
    RunState × Except String BlackboardEntry :=
  let entry : BlackboardEntry :=
    { id := idGen st.blackboard.length, timestamp := timestamp, source := source,
      category := category, content := content, data := data }
  let st1 : RunState :=
    { st with blackboard := st.blackboard ++ [entry],
              events := st.events ++ [.blackboard entry] }
  match persist st.persistCount with
  | none =>
    ({ st1 with persistCount := st.persistCount + 1, persisted := st.persisted ++ [entry] },
     .ok entry)
  | some msg =>
    ({ st1 with persistCount := st.persistCount + 1 }, .error msg)

/-- `ToolResult` of the source, specialized to `readSettings` (`data` is the
fetched project row). -/
structure ToolResult where
  tool : String
  success : Bool
  data : Option ProjSettings := none
  error : Option String := none
  blackboardEntries : List BlackboardEntry
deriving DecidableEq

def maturityOf (ageInDays : Nat) : String :=
  if ageInDays < 7 then "nascent"
  else if ageInDays < 30 then "developing"
  else if ageInDays < 90 then "maturing"
  else "established"

/-- The first (observation) entry content of `readSettings`. -/
def settingsObsContent (proj : ProjSettings) (dateStr : String) : String :=
  "Project \"" ++ proj.name ++ "\" established on " ++ dateStr ++ ". " ++
    (match proj.description with
     | some d => "Core purpose: " ++ d
     | none => "No description provided - this may indicate early-stage planning.")

def settingsOrgContent (org : String) : String :=
  "Organizational context: " ++ org ++
    ". This provides institutional framing for stakeholder communications."

def settingsAgeContent (ageInDays : Nat) : String :=
  "Project age: " ++ toString ageInDays ++ " days (" ++ maturityOf ageInDays ++ " phase). " ++
    (if maturityOf ageInDays = "nascent" then "Expect foundational elements still forming."
     else if maturityOf ageInDays = "established" then
       "Should have substantial documentation and implementation."
     else "Active development likely ongoing.")

def settingsHookContent (proj : ProjSettings) : String :=
  "Opening narrative hook: \"" ++ proj.name ++ "\" " ++
    (match proj.description with
     | some d => "aims to " ++ d.toLower
     | none => "represents a strategic initiative requiring further definition") ++ "."

/-- `readSettings` of the source: status event; fetch (its outcome is the
`fetch` parameter); store the row into `collectedData.settings`; then three
or four `addToBlackboard` calls (the organization entry only when the field
is truthy).  Any rejection lands in the catch, which returns a failed
`ToolResult` with an empty `blackboardEntries` list.  `dateStr` stands for
`toLocaleDateString()` and `ageInDays` for the age computation, both
platform/time dependent. -/
def readSettings (persist : Nat → Option String) (idGen : Nat → String)
    (timestamp dateStr : String) (ageInDays : Nat)
    (fetch : Except String ProjSettings) (st : RunState) : RunState × ToolResult :=
  let st := { st with events := st.events ++
    [.status "read_settings" "Analyzing project settings..."] }
  match fetch with
  | .error msg =>
    (st, { tool := "read_settings", success := false, error := some msg,
           blackboardEntries := [] })
  | .ok proj =>
    let st := { st with settings := some proj }
    match addToBlackboard persist idGen timestamp "read_settings" "observation"
        (settingsObsContent proj dateStr)
        (some (Json.obj [("name", .str proj.name),
                         ("description", match proj.description with
                                         | some d => .str d
                                         | none => .null),
                         ("created", .str proj.created_at)])) st with
    | (st, .error m) =>
      (st, { tool := "read_settings", success := false, error := some m,
             blackboardEntries := [] })
    | (st, .ok e1) =>
      match (match proj.organization with
             | none => (st, Except.ok [e1])
             | some org =>
               match addToBlackboard persist idGen timestamp "read_settings" "observation"
                   (settingsOrgContent org)
                   (some (Json.obj [("organization", .str org)])) st with
               | (st, .error m) => (st, Except.error m)
               | (st, .ok e2) => (st, Except.ok [e1, e2])) with
      | (st, .error m) =>
        (st, { tool := "read_settings", success := false, error := some m,
               blackboardEntries := [] })
      | (st, .ok es) =>
        match addToBlackboard persist idGen timestamp "read_settings" "insight"
            (settingsAgeContent ageInDays)
            (some (Json.obj [("ageInDays", .num ageInDays),
                             ("maturityAssessment", .str (maturityOf ageInDays))])) st with
        | (st, .error m) =>
          (st, { tool := "read_settings", success := false, error := some m,
                 blackboardEntries := [] })
        | (st, .ok e3) =>
          match addToBlackboard persist idGen timestamp "read_settings" "narrative"
              (settingsHookContent proj) none st with
          | (st, .error m) =>
            (st, { tool := "read_settings", success := false, error := some m,
                   blackboardEntries := [] })
          | (st, .ok e4) =>
            (st, { tool := "read_settings", success := true, data := some proj,
                   blackboardEntries := es ++ [e3, e4] })

/-! ## Facts about `enforceOutlineCount` -/

theorem padLoop_length (targetSlides : Nat) :
    ∀ (fuel : Nat) (titles : List String) (parsed : List SlideOutline),
      (padLoop targetSlides fuel titles parsed).length
        = if parsed.length < targetSlides
          then min targetSlides (parsed.length + fuel)
          else parsed.length := by
  intro fuel
  induction fuel with
  | zero =>
    intro titles parsed
    rw [padLoop]
    split <;> omega
  | succ fuel ih =>
    intro titles parsed
    rw [padLoop]
    split
    · rename_i h
      rw [ih]
      simp only [List.length_append, List.length_singleton]
      split <;> omega
    · rfl

/-- Count enforcement always returns exactly the target number of items. -/
theorem enforceOutlineCount_length (targetSlides : Nat) (parsed0 : List SlideOutline) :
    (enforceOutlineCount targetSlides parsed0).length = targetSlides := by
  rw [enforceOutlineCount]
  simp only [List.length_mapIdx]
  split
  · rename_i h
    rw [padLoop_length]
    split <;> omega
  · split
    · rename_i h
      simp only [List.length_take]
      omega
    · omega

theorem mapIdx_orders (k : Nat) :
    ∀ l : List SlideOutline,
      (l.mapIdx (fun i s => { s with order := i + k + 1 })).map (fun s => s.order)
        = List.range' (k + 1) l.length := by
  intro l
  induction l generalizing k with
  | nil => rfl
  | cons a t ih =>
    rw [List.mapIdx_cons, List.map_cons, List.length_cons, List.range']
    have hfe : (fun i (s : SlideOutline) => { s with order := i + 1 + k + 1 })
        = (fun i (s : SlideOutline) => { s with order := i + (k + 1) + 1 }) := by
      funext i s
      congr 1
      omega
    rw [hfe, ih (k + 1)]
    simp

/-- After enforcement, `order` runs contiguously 1..targetSlides. -/
theorem enforceOutlineCount_orders (targetSlides : Nat) (parsed0 : List SlideOutline) :
    (enforceOutlineCount targetSlides parsed0).map (fun s => s.order)
      = List.range' 1 targetSlides := by
  have hlen := enforceOutlineCount_length targetSlides parsed0
  rw [enforceOutlineCount] at hlen ⊢
  simp only [List.length_mapIdx] at hlen
  have h0 := mapIdx_orders 0 (if parsed0.length < targetSlides then
      padLoop targetSlides (targetSlides - parsed0.length)
        (parsed0.map (fun s => s.title)) parsed0
    else if parsed0.length > targetSlides then parsed0.take targetSlides
    else parsed0)
  simp only [Nat.zero_add] at h0
  rw [h0, hlen]

/-- When the model over-delivers, enforcement truncates to the first
`targetSlides` items (then reassigns order). -/
theorem enforceOutlineCount_truncate (targetSlides : Nat) (parsed0 : List SlideOutline)
    (h : targetSlides ≤ parsed0.length) :
    enforceOutlineCount targetSlides parsed0
      = (parsed0.take targetSlides).mapIdx (fun i s => { s with order := i + 1 }) := by
  rw [enforceOutlineCount]
  rcases Nat.lt_or_ge targetSlides parsed0.length with hlt | hge
  · rw [if_neg (by omega), if_pos hlt]
  · have hlen : parsed0.length = targetSlides := by omega
    have hp : parsed0.take targetSlides = parsed0 := by
      rw [← hlen]
      exact List.take_length parsed0
    rw [if_neg (by omega), if_neg (by omega), hp]

theorem padLoop_prefix (targetSlides : Nat) :
    ∀ (fuel : Nat) (titles : List String) (parsed : List SlideOutline),
      ∃ suffix, padLoop targetSlides fuel titles parsed = parsed ++ suffix := by
  intro fuel
  induction fuel with
  | zero => intro titles parsed; exact ⟨[], by rw [padLoop, List.append_nil]⟩
  | succ fuel ih =>
    intro titles parsed
    rw [padLoop]
    split
    · rename_i h
      obtain ⟨s, hs⟩ := ih _ _
      exact ⟨_, by rw [hs, List.append_assoc]⟩
    · exact ⟨[], by rw [List.append_nil]⟩

theorem padLoop_get (targetSlides : Nat) :
    ∀ (fuel : Nat) (titles : List String) (parsed : List SlideOutline) (i : Nat),
      parsed.length ≤ i → i < targetSlides → parsed.length + fuel = targetSlides →
      ∃ ttl, (padLoop targetSlides fuel titles parsed)[i]?
          = some { order := i + 1,
                   layoutId := paddingLayouts.get ⟨i % 4, by exact Nat.mod_lt _ (by decide)⟩,
                   title := ttl,
                   purpose := (paddingTopics.get ⟨i % 6,
                     by exact Nat.mod_lt _ (by decide)⟩).purpose,
                   keyContent := (paddingTopics.get ⟨i % 6,
                     by exact Nat.mod_lt _ (by decide)⟩).keyContent,
                   imagePrompt := none }
        ∧ (ttl = (paddingTopics.get ⟨i % 6, by exact Nat.mod_lt _ (by decide)⟩).title
           ∨ ttl = (paddingTopics.get ⟨i % 6, by exact Nat.mod_lt _ (by decide)⟩).title
               ++ " (" ++ toString i ++ ")") := by
  intro fuel
  induction fuel with
  | zero => intro titles parsed i h1 h2 h3; omega
  | succ fuel ih =>
    intro titles parsed i h1 h2 h3
    rw [padLoop, if_pos (by omega)]
    rcases Nat.eq_or_lt_of_le h1 with heq | hlt
    · subst heq
      split
      · refine ⟨(paddingTopics.get ⟨parsed.length % 6,
            by exact Nat.mod_lt _ (by decide)⟩).title ++ " (" ++ toString parsed.length ++ ")",
          ?_, Or.inr rfl⟩
        obtain ⟨suffix, hs⟩ := padLoop_prefix targetSlides fuel _ _
        rw [hs, List.getElem?_append_left (by simp), List.getElem?_concat_length]
      · refine ⟨(paddingTopics.get ⟨parsed.length % 6,
            by exact Nat.mod_lt _ (by decide)⟩).title, ?_, Or.inl rfl⟩
        obtain ⟨suffix, hs⟩ := padLoop_prefix targetSlides fuel _ _
        rw [hs, List.getElem?_append_left (by simp), List.getElem?_concat_length]
    · refine ih _ _ i ?_ h2 ?_
      · simp; omega
      · simp; omega


/-! ## C3: the redistribution loop stalls for targetSlides = 22 -/

theorem distributeLoop_stag :
    ∀ fuel, distributeLoop 22 fuel
      [(3,3),(3,3),(2,2),(4,4),(3,3),(2,2),(2,2),(2,2)] 1 = none := by
  intro fuel
  induction fuel with
  | zero => rfl
  | succ n ih =>
    rw [distributeLoop, if_pos (by decide)]
    show (if (sweepOnce [(3,3),(3,3),(2,2),(4,4),(3,3),(2,2),(2,2),(2,2)] 1).2 = 22
        then some (sweepOnce [(3,3),(3,3),(2,2),(4,4),(3,3),(2,2),(2,2),(2,2)] 1).1
        else distributeLoop 22 n
          (sweepOnce [(3,3),(3,3),(2,2),(4,4),(3,3),(2,2),(2,2),(2,2)] 1).1
          (sweepOnce [(3,3),(3,3),(2,2),(4,4),(3,3),(2,2),(2,2),(2,2)] 1).2) = none
    rw [show sweepOnce [(3,3),(3,3),(2,2),(4,4),(3,3),(2,2),(2,2),(2,2)] 1
        = ([(3,3),(3,3),(2,2),(4,4),(3,3),(2,2),(2,2),(2,2)], 1) from rfl]
    rw [if_neg (by decide)]
    exact ih

theorem distributeLoop_22_none :
    ∀ fuel, distributeLoop 22 fuel (firstPass sectionDefs 22).1
      (firstPass sectionDefs 22).2 = none := by
  intro fuel
  match fuel with
  | 0 => rfl
  | 1 => rfl
  | 2 => rfl
  | n + 3 =>
    have h2 : distributeLoop 22 (n + 3) (firstPass sectionDefs 22).1
        (firstPass sectionDefs 22).2
        = distributeLoop 22 (n + 1)
          [(3,3),(3,3),(2,2),(4,4),(3,3),(2,2),(2,2),(2,2)] 1 := by
      rw [show (firstPass sectionDefs 22).1 = [(2,3),(1,3),(1,2),(2,4),(1,3),(1,2),(1,2),(1,2)]
          from rfl,
        show (firstPass sectionDefs 22).2 = 12 from rfl]
      rw [distributeLoop, if_pos (by decide)]
      show (if (sweepOnce [(2,3),(1,3),(1,2),(2,4),(1,3),(1,2),(1,2),(1,2)] 12).2 = 22
          then some (sweepOnce [(2,3),(1,3),(1,2),(2,4),(1,3),(1,2),(1,2),(1,2)] 12).1
          else distributeLoop 22 (n + 2)
            (sweepOnce [(2,3),(1,3),(1,2),(2,4),(1,3),(1,2),(1,2),(1,2)] 12).1
            (sweepOnce [(2,3),(1,3),(1,2),(2,4),(1,3),(1,2),(1,2),(1,2)] 12).2) = _
      rw [show sweepOnce [(2,3),(1,3),(1,2),(2,4),(1,3),(1,2),(1,2),(1,2)] 12
          = ([(3,3),(2,3),(2,2),(3,4),(2,3),(2,2),(2,2),(2,2)], 4) from rfl]
      rw [if_neg (by decide)]
      rw [distributeLoop, if_pos (by decide)]
      show (if (sweepOnce [(3,3),(2,3),(2,2),(3,4),(2,3),(2,2),(2,2),(2,2)] 4).2 = 22
          then some (sweepOnce [(3,3),(2,3),(2,2),(3,4),(2,3),(2,2),(2,2),(2,2)] 4).1
          else distributeLoop 22 (n + 1)
            (sweepOnce [(3,3),(2,3),(2,2),(3,4),(2,3),(2,2),(2,2),(2,2)] 4).1
            (sweepOnce [(3,3),(2,3),(2,2),(3,4),(2,3),(2,2),(2,2),(2,2)] 4).2) = _
      rw [show sweepOnce [(3,3),(2,3),(2,2),(3,4),(2,3),(2,2),(2,2),(2,2)] 4
          = ([(3,3),(3,3),(2,2),(4,4),(3,3),(2,2),(2,2),(2,2)], 1) from rfl]
      rw [if_neg (by decide)]
    rw [h2]
    exact distributeLoop_stag (n + 1)


/-! ## C4/C5: characterizing the slide-generation loop -/

theorem genLoopAux_eq (total : Nat) (oracle : Nat → GenOutcome) (idGen : Nat → String) :
    ∀ (rest : List SlideOutline) (i : Nat) (st : GenLoopState),
      genLoopAux total oracle idGen i rest st =
        { slides := st.slides ++ slidesFrom oracle idGen i rest,
          events := st.events ++ eventsFrom total oracle idGen i rest,
          saves := st.saves ++ savesFrom total oracle idGen i rest st.slides } := by
  intro rest
  induction rest with
  | nil => intro i st; simp [genLoopAux, slidesFrom, eventsFrom, savesFrom]
  | cons o rest ih =>
    intro i st
    rw [genLoopAux, ih]
    rcases hoi : oracle i with parsed | _
    · by_cases hcp : checkpointAt total i = true
      · simp [genStep, slideAt, slidesFrom, eventsFrom, savesFrom, hoi, hcp, GenOutcome.isOk]
      · simp [genStep, slideAt, slidesFrom, eventsFrom, savesFrom, hoi, hcp, GenOutcome.isOk]
    · simp [genStep, slideAt, slidesFrom, eventsFrom, savesFrom, hoi, GenOutcome.isOk]

theorem runGenLoop_eq (outlines : List SlideOutline) (oracle : Nat → GenOutcome)
    (idGen : Nat → String) :
    runGenLoop outlines oracle idGen =
      { slides := slidesFrom oracle idGen 0 outlines,
        events := eventsFrom outlines.length oracle idGen 0 outlines,
        saves := savesFrom outlines.length oracle idGen 0 outlines [] } := by
  rw [runGenLoop, genLoopAux_eq]
  simp


theorem slidesFrom_length (oracle : Nat → GenOutcome) (idGen : Nat → String) :
    ∀ (rest : List SlideOutline) (i : Nat),
      (slidesFrom oracle idGen i rest).length = rest.length := by
  intro rest
  induction rest with
  | nil => intro i; rfl
  | cons o rest ih => intro i; rw [slidesFrom, List.length_cons, List.length_cons, ih]

theorem slidesFrom_getElem (oracle : Nat → GenOutcome) (idGen : Nat → String) :
    ∀ (rest : List SlideOutline) (i j : Nat) (h : j < rest.length),
      (slidesFrom oracle idGen i rest)[j]? = some (slideAt oracle idGen (i + j) (rest.get ⟨j, h⟩)) := by
  intro rest
  induction rest with
  | nil => intro i j h; simp at h
  | cons o rest ih =>
    intro i j h
    match j with
    | 0 => simp [slidesFrom]
    | j + 1 =>
      rw [slidesFrom]
      rw [List.getElem?_cons_succ]
      rw [ih (i + 1) j (by simpa using Nat.lt_of_succ_lt_succ h)]
      simp [Nat.add_assoc, Nat.add_comm 1 j]

theorem eventsFrom_slides (total : Nat) (oracle : Nat → GenOutcome) (idGen : Nat → String) :
    ∀ (rest : List SlideOutline) (i : Nat),
      (eventsFrom total oracle idGen i rest).filterMap slideEvent?
        = slidesFrom oracle idGen i rest := by
  intro rest
  induction rest with
  | nil => intro i; rfl
  | cons o rest ih =>
    intro i
    rw [eventsFrom, slidesFrom, List.filterMap_cons, List.filterMap_cons, ih]
    rfl

theorem savesFrom_mem (total : Nat) (oracle : Nat → GenOutcome) (idGen : Nat → String) :
    ∀ (rest : List SlideOutline) (i : Nat) (acc : List GeneratedSlide) (j : Nat),
      j < rest.length → (oracle (i + j)).isOk = true → checkpointAt total (i + j) = true →
      (acc ++ (slidesFrom oracle idGen i rest).take (j + 1))
        ∈ savesFrom total oracle idGen i rest acc := by
  intro rest
  induction rest with
  | nil => intro i acc j h; simp at h
  | cons o rest ih =>
    intro i acc j hj hok hcp
    rw [savesFrom]
    match j with
    | 0 =>
      rw [Nat.add_zero] at hok hcp
      rw [if_pos ⟨hok, hcp⟩]
      rw [slidesFrom]
      simp
    | j + 1 =>
      apply List.mem_append_right
      have hj' : j < rest.length := by simpa using Nat.lt_of_succ_lt_succ hj
      have h2 := ih (i + 1) (acc ++ [slideAt oracle idGen i o]) j hj'
        (by rw [show i + 1 + j = i + (j + 1) from by omega]; exact hok)
        (by rw [show i + 1 + j = i + (j + 1) from by omega]; exact hcp)
      rw [slidesFrom, List.take_succ_cons]
      simpa [List.append_assoc] using h2


/-! ## Claim C1 -/

/-- C1: for every target slide count N at least 1 and every parsed model
array, `generateSlideOutline`'s count enforcement returns exactly N items
whose `order` fields form the contiguous sequence 1..N in array order; model
items are kept in order (truncated to the first N when over-length) with
`order` reassigned to position + 1, and under-length input is padded with
entries drawn cyclically from the fixed topic pool and layout rotation,
renamed on title collision by appending the slide index. -/
theorem claim_C1 (N : Nat) (hN : 1 ≤ N) (parsed0 : List SlideOutline) :
    (enforceOutlineCount N parsed0).length = N
  ∧ (enforceOutlineCount N parsed0).map (fun s => s.order) = List.range' 1 N
  ∧ (∀ i, i < parsed0.length → i < N →
      ∃ s0, parsed0[i]? = some s0
        ∧ (enforceOutlineCount N parsed0)[i]? = some { s0 with order := i + 1 })
  ∧ (∀ i, parsed0.length ≤ i → i < N →
      ∃ ttl,
        (enforceOutlineCount N parsed0)[i]?
          = some { order := i + 1,
                   layoutId := paddingLayouts.get ⟨i % 4, by exact Nat.mod_lt _ (by decide)⟩,
                   title := ttl,
                   purpose := (paddingTopics.get ⟨i % 6,
                     by exact Nat.mod_lt _ (by decide)⟩).purpose,
                   keyContent := (paddingTopics.get ⟨i % 6,
                     by exact Nat.mod_lt _ (by decide)⟩).keyContent,
                   imagePrompt := none }
        ∧ (ttl = (paddingTopics.get ⟨i % 6, by exact Nat.mod_lt _ (by decide)⟩).title
           ∨ ttl = (paddingTopics.get ⟨i % 6, by exact Nat.mod_lt _ (by decide)⟩).title
               ++ " (" ++ toString i ++ ")")) := by
  refine ⟨enforceOutlineCount_length N parsed0, enforceOutlineCount_orders N parsed0, ?_, ?_⟩
  · intro i hi hiN
    refine ⟨parsed0.get ⟨i, hi⟩, by simp, ?_⟩
    rw [enforceOutlineCount]
    simp only [List.getElem?_mapIdx]
    split
    · rename_i hlt
      obtain ⟨suffix, hs⟩ := padLoop_prefix N (N - parsed0.length)
        (parsed0.map (fun s => s.title)) parsed0
      rw [hs, List.getElem?_append_left hi, List.getElem?_eq_getElem hi]
      rfl
    · split
      · rw [List.getElem?_take_of_lt hiN, List.getElem?_eq_getElem hi]
        rfl
      · rw [List.getElem?_eq_getElem hi]
        rfl
  · intro i hle hiN
    have hlt : parsed0.length < N := by omega
    rw [enforceOutlineCount]
    simp only [List.getElem?_mapIdx]
    rw [if_pos hlt]
    obtain ⟨ttl, hget, hor⟩ := padLoop_get N (N - parsed0.length)
      (parsed0.map (fun s => s.title)) parsed0 i hle hiN (by omega)
    refine ⟨ttl, ?_, hor⟩
    rw [hget]
    rfl

theorem claim_C1_witness : (enforceOutlineCount 2 []).length = 2 :=
  (claim_C1 2 (by decide) []).1

/-! ## Claim C2 -/

/-- The scenario raw model text of the spec: prose, a fenced JSON object,
prose. -/
def scenarioText : String :=
  "Sure! Here's the JSON:\n```json\n\x7b\"concepts\":[]\x7d\n```\nLet me know if you need changes."

/-- C2 counterexample: the round trip fails for the valid JSON value
`false` — its stringified form parses to the definitive `null`, not to a
value deep-equal to `false` (every falsy value is discarded by the
truthiness guards of all five methods). -/
theorem claim_C2_counterexample :
    parseAgentResponseText (stringifyJson (Json.bool false)) = Json.null
    ∧ Json.null ≠ Json.bool false := by
  constructor
  · decide
  · decide

/-- C2 (amended to truthy values): `parseAgentResponseText` reports failure
as a value (`null` or a truthy recovered value — it never throws); for every
truthy JSON value V, parsing `JSON.stringify(V)` returns V itself; and the
fenced scenario text recovers the inner object. -/
theorem claim_C2 (s : String) (v : Json) (hv : truthy v = true) :
    (parseAgentResponseText s = Json.null ∨ truthy (parseAgentResponseText s) = true)
  ∧ parseAgentResponseText (stringifyJson v) = v
  ∧ parseAgentResponseText scenarioText = Json.obj [("concepts", Json.arr [])] :=
  ⟨parseAgentResponseText_null_or_truthy s, parseAgentResponseText_stringify v hv, by decide⟩

theorem claim_C2_witness :
    parseAgentResponseText (stringifyJson (Json.obj [])) = Json.obj [] :=
  (claim_C2 "garbage" (Json.obj []) (by decide)).2.1


/-! ## Claim C3 -/

/-- C3: contrary to the claim, `buildStoryStructure` does not terminate for
every target count — at targetSlides = 22 (one more than the sum 21 of all
section maxSlides) the redistribution loop stalls with one remaining slide,
its guard `remainingSlides === targetSlides` never fires, and the fueled
model returns `none` for every fuel, i.e. the source loop never exits. -/
theorem claim_C3 (fuel : Nat) (mode : String) :
    buildStoryStructureFuel fuel 22 mode = none := by
  rw [buildStoryStructureFuel, distributeLoop_22_none fuel]

theorem claim_C3_witness : buildStoryStructureFuel 1000 22 "detailed" = none :=
  claim_C3 1000 "detailed"

/-! ## Concrete example data for witnesses and counterexamples -/

/-- A concrete outline item used by witnesses and counterexamples. -/
def outlineExA : SlideOutline :=
  { order := 1, layoutId := "bullets", title := "a", purpose := "p", keyContent := [] }

def outlineExB : SlideOutline :=
  { order := 2, layoutId := "bullets", title := "b", purpose := "p", keyContent := [] }

def outlineExC : SlideOutline :=
  { order := 3, layoutId := "bullets", title := "c", purpose := "p", keyContent := [] }

/-- The parsed model object with every optional field absent. -/
def emptyParsedSlide : ParsedSlide := { }

/-! ## Claim C4 -/

/-- C4 counterexample: a missing `id` is not filled from the outline item —
two calls on the same outline item and the same parsed object yield slides
with different ids, the freshly generated id of each call. -/
theorem claim_C4_counterexample :
    (normalizeSlide "fresh-1" outlineExA emptyParsedSlide).id = "fresh-1"
  ∧ (normalizeSlide "fresh-2" outlineExA emptyParsedSlide).id = "fresh-2"
  ∧ "fresh-1" ≠ "fresh-2" := by
  refine ⟨rfl, rfl, by decide⟩

/-- C4 (amended: a missing id is replaced by a freshly generated id, not
taken from the outline item): every outline item yields exactly one
generated slide, streamed as exactly one slide event, with `order` and
`layoutId` copied from the outline item whether the model call succeeds or
fails; on success missing title/notes are filled from the outline item's
title/purpose, a missing content array is coerced to `[]`, and a missing id
becomes the freshly generated id; on failure the slide is the deterministic
fallback. -/
theorem claim_C4 (outlines : List SlideOutline) (oracle : Nat → GenOutcome)
    (idGen : Nat → String) (i : Nat) (h : i < outlines.length) :
    (runGenLoop outlines oracle idGen).slides.length = outlines.length
  ∧ (runGenLoop outlines oracle idGen).events.filterMap slideEvent?
      = (runGenLoop outlines oracle idGen).slides
  ∧ (runGenLoop outlines oracle idGen).slides[i]?
      = some (slideAt oracle idGen i (outlines.get ⟨i, h⟩))
  ∧ (slideAt oracle idGen i (outlines.get ⟨i, h⟩)).order = (outlines.get ⟨i, h⟩).order
  ∧ (slideAt oracle idGen i (outlines.get ⟨i, h⟩)).layoutId
      = (outlines.get ⟨i, h⟩).layoutId
  ∧ (∀ p, oracle i = GenOutcome.ok p →
      (slideAt oracle idGen i (outlines.get ⟨i, h⟩)).id = p.id.getD (idGen i)
      ∧ (slideAt oracle idGen i (outlines.get ⟨i, h⟩)).title
          = p.title.getD (outlines.get ⟨i, h⟩).title
      ∧ (slideAt oracle idGen i (outlines.get ⟨i, h⟩)).notes
          = some (p.notes.getD (outlines.get ⟨i, h⟩).purpose)
      ∧ (slideAt oracle idGen i (outlines.get ⟨i, h⟩)).content = p.content.getD [])
  ∧ (oracle i = GenOutcome.fail →
      slideAt oracle idGen i (outlines.get ⟨i, h⟩)
        = createFallbackSlide (idGen i) (outlines.get ⟨i, h⟩)) := by
  rw [runGenLoop_eq]
  refine ⟨slidesFrom_length oracle idGen outlines 0,
    eventsFrom_slides outlines.length oracle idGen outlines 0, ?_, ?_, ?_, ?_, ?_⟩
  · rw [slidesFrom_getElem oracle idGen outlines 0 i h]
    simp
  · rcases hoi : oracle i with p | _ <;> simp [slideAt, hoi, normalizeSlide, createFallbackSlide]
  · rcases hoi : oracle i with p | _ <;> simp [slideAt, hoi, normalizeSlide, createFallbackSlide]
  · intro p hp
    simp [slideAt, hp, normalizeSlide]
  · intro hp
    simp [slideAt, hp]

theorem claim_C4_witness :
    (runGenLoop [outlineExA] (fun _ => GenOutcome.fail) (fun _ => "g")).slides.length
      = [outlineExA].length :=
  (claim_C4 [outlineExA] (fun _ => GenOutcome.fail) (fun _ => "g") 0 (by decide)).1

/-! ## Claim C5 -/

/-- C5 counterexample: with every model call failing over a 3-item outline,
index 2 satisfies the checkpoint condition yet no persist call ever occurs —
the checkpoint sits inside the `try`, so fallback iterations never
checkpoint and no slide list of length 3 is ever persisted. -/
theorem claim_C5_counterexample :
    checkpointAt 3 2 = true
  ∧ (runGenLoop [outlineExA, outlineExB, outlineExC]
      (fun _ => GenOutcome.fail) (fun n => toString n)).saves = [] := by
  refine ⟨rfl, by decide⟩

/-- C5 (amended to successful iterations): if the model call for index i
succeeds and i satisfies the checkpoint condition `(i+1) % 3 == 0 or i is
the last index`, then a checkpoint persist call has occurred carrying the
first i+1 generated slides — a slide list of length i+1. -/
theorem claim_C5 (outlines : List SlideOutline) (oracle : Nat → GenOutcome)
    (idGen : Nat → String) (i : Nat) (p : ParsedSlide)
    (h : i < outlines.length) (hok : oracle i = GenOutcome.ok p)
    (hcp : checkpointAt outlines.length i = true) :
    ∃ l ∈ (runGenLoop outlines oracle idGen).saves,
      l.length = i + 1 ∧ l = (runGenLoop outlines oracle idGen).slides.take (i + 1) := by
  rw [runGenLoop_eq]
  refine ⟨(slidesFrom oracle idGen 0 outlines).take (i + 1), ?_, ?_, rfl⟩
  · have := savesFrom_mem outlines.length oracle idGen outlines 0 [] i h
      (by rw [Nat.zero_add, hok]; rfl) (by rwa [Nat.zero_add])
    simpa using this
  · rw [List.length_take, slidesFrom_length]
    omega

theorem claim_C5_witness :
    ∃ l ∈ (runGenLoop [outlineExA, outlineExB, outlineExC]
      (fun _ => GenOutcome.ok emptyParsedSlide) (fun n => toString n)).saves,
      l.length = 2 + 1
      ∧ l = (runGenLoop [outlineExA, outlineExB, outlineExC]
          (fun _ => GenOutcome.ok emptyParsedSlide) (fun n => toString n)).slides.take (2 + 1) :=
  claim_C5 _ _ _ 2 emptyParsedSlide (by decide) rfl (by decide)


/-! ## Claim C6 -/

/-- C6 counterexample: on the model path with an empty parsed array and
targetSlides = 4, padding supplies all four items and the first one carries
layoutId "bullets" (the head of the padding layout rotation), not
"title-cover" — the model path does not force a cover slide. -/
theorem claim_C6_counterexample :
    (outlineStep 4 (some []) "P" 0 0 []).length = 4
  ∧ (outlineStep 4 (some []) "P" 0 0 []).head?.map (fun s => s.layoutId) = some "bullets"
  ∧ ("bullets" : String) ≠ "title-cover" := by
  refine ⟨by decide, by decide, by decide⟩

/-- C6 (amended: only the fallback path guarantees a leading "title-cover";
the model path keeps whatever layouts the enforced model array carries):
the fallback outline always has exactly 4 items (independent of the
requested targetSlides) led by the cover slide; the model path yields
exactly targetSlides items; and running the generation loop over the
fallback outline yields exactly 4 GeneratedSlides whose first slide has
layoutId "title-cover". -/
theorem claim_C6 (targetSlides : Nat) (projectName : String) (cs rc : Nat)
    (bb : List BlackboardEntry) (parsed : List SlideOutline)
    (oracle : Nat → GenOutcome) (idGen : Nat → String) :
    (fallbackOutline projectName cs rc bb).length = 4
  ∧ (fallbackOutline projectName cs rc bb).head?.map (fun s => s.layoutId)
      = some "title-cover"
  ∧ (outlineStep targetSlides (some parsed) projectName cs rc bb).length = targetSlides
  ∧ (runGenLoop (outlineStep targetSlides none projectName cs rc bb)
      oracle idGen).slides.length = 4
  ∧ (runGenLoop (outlineStep targetSlides none projectName cs rc bb)
      oracle idGen).slides.head?.map (fun s => s.layoutId) = some "title-cover" := by
  refine ⟨rfl, rfl, enforceOutlineCount_length targetSlides parsed, ?_, ?_⟩
  · rw [runGenLoop_eq]
    show (slidesFrom oracle idGen 0
      (outlineStep targetSlides none projectName cs rc bb)).length = 4
    rw [slidesFrom_length]
    rfl
  · rw [runGenLoop_eq]
    show (slidesFrom oracle idGen 0
      (outlineStep targetSlides none projectName cs rc bb)).head?.map
        (fun s => s.layoutId) = some "title-cover"
    rw [show outlineStep targetSlides none projectName cs rc bb
        = fallbackOutline projectName cs rc bb from rfl]
    rw [fallbackOutline, slidesFrom]
    rcases hoi : oracle 0 with p | _ <;>
      simp [slideAt, hoi, normalizeSlide, createFallbackSlide]

/-! ## Claim C7 -/

/-- C7: the completion score is the sum of the fixed weights
(requirements 15, architecture 20, code 25, specs 15, artifacts 10,
databases 8, deployments 7) over the categories with at least one item; it
never exceeds 100 (the weights total exactly 100, so the cap is tight),
all-empty data scores 0, and all seven categories populated score 100. -/
theorem claim_C7 (r n f s a d dep : Nat) :
    completionScore r n f s a d dep
      = (if 0 < r then 15 else 0) + (if 0 < n then 20 else 0)
        + (if 0 < f then 25 else 0) + (if 0 < s then 15 else 0)
        + (if 0 < a then 10 else 0) + (if 0 < d then 8 else 0)
        + (if 0 < dep then 7 else 0)
  ∧ completionScore r n f s a d dep ≤ 100
  ∧ completionScore 0 0 0 0 0 0 0 = 0
  ∧ (0 < r → 0 < n → 0 < f → 0 < s → 0 < a → 0 < d → 0 < dep →
      completionScore r n f s a d dep = 100) := by
  refine ⟨?_, ?_, by decide, ?_⟩
  · rw [completionScore]
    split_ifs <;> omega
  · rw [completionScore]
    split_ifs <;> omega
  · intro h1 h2 h3 h4 h5 h6 h7
    rw [completionScore]
    split_ifs <;> omega

theorem claim_C7_witness : completionScore 1 2 3 4 5 6 7 = 100 :=
  (claim_C7 1 2 3 4 5 6 7).2.2.2 (by decide) (by decide) (by decide) (by decide)
    (by decide) (by decide) (by decide)

/-! ## Claim C8 -/

/-- C8 counterexample: with the key missing, the error event is not the
first observable action, and a data-store mutation (the initial presentation
status update) precedes it — the source emits the starting status event and
issues the status rpc before checking the key. -/
theorem claim_C8_counterexample :
    (serveStart none).head?
      = some (StartAction.emit (StreamEvent.status "starting"
          "Initializing presentation agent..."))
  ∧ (serveStart none)[1]? = some (StartAction.rpc "update_presentation_with_token")
  ∧ (serveStart none)[2]?
      = some (StartAction.emit (StreamEvent.error "GEMINI_API_KEY is not configured"))
  ∧ (serveStart none).head?
      ≠ some (StartAction.emit (StreamEvent.error "GEMINI_API_KEY is not configured")) := by
  refine ⟨rfl, rfl, rfl, by decide⟩

/-- C8 (amended: the starting status event and the initial presentation
status update precede the key check): a missing GEMINI_API_KEY aborts the
run — the prologue is exactly the status event, the status rpc, a single
error event, and the stream close; no pipeline work runs and the error
message is the fixed key message. -/
theorem claim_C8 (k : Option String) (hk : k = none) :
    serveStart k
      = [StartAction.emit (StreamEvent.status "starting"
           "Initializing presentation agent..."),
         StartAction.rpc "update_presentation_with_token",
         StartAction.emit (StreamEvent.error "GEMINI_API_KEY is not configured"),
         StartAction.closeStream]
  ∧ StartAction.runPipeline ∉ serveStart k
  ∧ (serveStart k).getLast? = some StartAction.closeStream
  ∧ (∀ m, StartAction.emit (StreamEvent.error m) ∈ serveStart k
      → m = "GEMINI_API_KEY is not configured") := by
  subst hk
  refine ⟨rfl, by decide, rfl, ?_⟩
  intro m hm
  rw [serveStart] at hm
  simp at hm
  rcases hm with h | h | h | h <;> simp_all

theorem claim_C8_witness :
    serveStart none
      = [StartAction.emit (StreamEvent.status "starting"
           "Initializing presentation agent..."),
         StartAction.rpc "update_presentation_with_token",
         StartAction.emit (StreamEvent.error "GEMINI_API_KEY is not configured"),
         StartAction.closeStream] :=
  (claim_C8 none rfl).1


/-! ## Claim C9 -/

/-- A concrete outline item with a layout that declares no `content`
region. -/
def outlineExCover : SlideOutline :=
  { order := 1, layoutId := "title-cover", title := "T", purpose := "P", keyContent := ["k"] }

/-- C9 counterexample: the fallback slide for a "title-cover" outline item
places its content in regionId "content", which "title-cover" does not
declare (its regions are title, subtitle, presenter, date) — the emitted
slide violates the stated regionId invariant. -/
theorem claim_C9_counterexample :
    ¬ slideRegionsValid (createFallbackSlide "f1" outlineExCover) := by
  decide

/-- C9 (amended: the fallback always targets the single regionId "content",
which is declared only for the content-bearing layouts and the unknown
default, so fallback slides for layouts such as "title-cover" or
"stats-grid" violate the invariant): every entry of a fallback slide's
content has regionId "content", and the fallback slide satisfies the
invariant exactly when its outline's layout declares a "content" region —
true for "title-content", "image-left", "image-right" (and unknown
layouts), false for "title-cover" and "stats-grid". -/
theorem claim_C9 (freshId : String) (o : SlideOutline) :
    (∀ c ∈ (createFallbackSlide freshId o).content, c.regionId = "content")
  ∧ (slideRegionsValid (createFallbackSlide freshId o)
      ↔ "content" ∈ layoutRegionIds o.layoutId)
  ∧ "content" ∈ layoutRegionIds "title-content"
  ∧ "content" ∈ layoutRegionIds "image-left"
  ∧ "content" ∈ layoutRegionIds "image-right"
  ∧ "content" ∈ layoutRegionIds "unknown-layout"
  ∧ "content" ∉ layoutRegionIds "title-cover"
  ∧ "content" ∉ layoutRegionIds "stats-grid" := by
  refine ⟨?_, ?_, by decide, by decide, by decide, by decide, by decide, by decide⟩
  · intro c hc
    simp [createFallbackSlide] at hc
    rw [hc]
  · simp [slideRegionsValid, createFallbackSlide]


/-! ## Claim C10 -/

/-- The number of blackboard entries `readSettings` attempts to add: four
when the project has an organization, three otherwise. -/
def settingsEntryCount (proj : ProjSettings) : Nat :=
  match proj.organization with
  | some _ => 4
  | none => 3

/-- The observation entry `readSettings` adds first, as created when the
in-memory blackboard has length `n`. -/
def settingsObsEntry (idGen : Nat → String) (timestamp dateStr : String)
    (proj : ProjSettings) (n : Nat) : BlackboardEntry :=
  { id := idGen n, timestamp := timestamp, source := "read_settings",
    category := "observation", content := settingsObsContent proj dateStr,
    data := some (Json.obj [("name", .str proj.name),
                            ("description", match proj.description with
                                            | some d => .str d
                                            | none => .null),
                            ("created", .str proj.created_at)]) }

/-- The organization entry (only when the project has an organization). -/
def settingsOrgEntry (idGen : Nat → String) (timestamp org : String) (n : Nat) :
    BlackboardEntry :=
  { id := idGen n, timestamp := timestamp, source := "read_settings",
    category := "observation", content := settingsOrgContent org,
    data := some (Json.obj [("organization", .str org)]) }

/-- The age/maturity insight entry. -/
def settingsAgeEntry (idGen : Nat → String) (timestamp : String) (ageInDays n : Nat) :
    BlackboardEntry :=
  { id := idGen n, timestamp := timestamp, source := "read_settings",
    category := "insight", content := settingsAgeContent ageInDays,
    data := some (Json.obj [("ageInDays", .num ageInDays),
                            ("maturityAssessment", .str (maturityOf ageInDays))]) }

/-- The narrative hook entry. -/
def settingsHookEntry (idGen : Nat → String) (timestamp : String)
    (proj : ProjSettings) (n : Nat) : BlackboardEntry :=
  { id := idGen n, timestamp := timestamp, source := "read_settings",
    category := "narrative", content := settingsHookContent proj, data := none }

/-- The entries `readSettings` attempts to add, in call order, when the
in-memory blackboard starts at length `n`. -/
def settingsEntriesFrom (idGen : Nat → String) (timestamp dateStr : String)
    (ageInDays : Nat) (proj : ProjSettings) (n : Nat) : List BlackboardEntry :=
  settingsObsEntry idGen timestamp dateStr proj n ::
    (match proj.organization with
     | some org =>
       [settingsOrgEntry idGen timestamp org (n + 1),
        settingsAgeEntry idGen timestamp ageInDays (n + 2),
        settingsHookEntry idGen timestamp proj (n + 3)]
     | none =>
       [settingsAgeEntry idGen timestamp ageInDays (n + 1),
        settingsHookEntry idGen timestamp proj (n + 2)])

/-- C10: a partial persist failure leaves `readSettings` non-atomic — if the
per-entry persist rpc rejects at the k-th call (0-based, after k successful
calls), the operation returns a failed ToolResult whose `blackboardEntries`
is empty and whose error carries the rejection message, yet the fetched row
is already stored in `collectedData.settings`, the k+1 entries created up to
and including the failing call remain on the in-memory blackboard and were
already streamed as blackboard events, and only the first k of them were
persisted. -/
theorem claim_C10 (persist : Nat → Option String) (idGen : Nat → String)
    (timestamp dateStr : String) (ageInDays : Nat) (proj : ProjSettings)
    (st0 : RunState) (k : Nat) (msg : String)
    (hk : k < settingsEntryCount proj)
    (hok : ∀ j, j < k → persist (st0.persistCount + j) = none)
    (hrej : persist (st0.persistCount + k) = some msg) :
    (readSettings persist idGen timestamp dateStr ageInDays (.ok proj) st0).2.success = false
  ∧ (readSettings persist idGen timestamp dateStr ageInDays
      (.ok proj) st0).2.blackboardEntries = []
  ∧ (readSettings persist idGen timestamp dateStr ageInDays (.ok proj) st0).2.error = some msg
  ∧ (readSettings persist idGen timestamp dateStr ageInDays (.ok proj) st0).1.settings
      = some proj
  ∧ (readSettings persist idGen timestamp dateStr ageInDays (.ok proj) st0).1.blackboard
      = st0.blackboard
        ++ (settingsEntriesFrom idGen timestamp dateStr ageInDays proj
              st0.blackboard.length).take (k + 1)
  ∧ (readSettings persist idGen timestamp dateStr ageInDays (.ok proj) st0).1.events
      = st0.events ++ StreamEvent.status "read_settings" "Analyzing project settings..."
          :: ((settingsEntriesFrom idGen timestamp dateStr ageInDays proj
                st0.blackboard.length).take (k + 1)).map StreamEvent.blackboard
  ∧ (readSettings persist idGen timestamp dateStr ageInDays (.ok proj) st0).1.persisted
      = st0.persisted
        ++ (settingsEntriesFrom idGen timestamp dateStr ageInDays proj
              st0.blackboard.length).take k := by
  rcases horg : proj.organization with _ | org
  · rw [settingsEntryCount, horg] at hk
    interval_cases k
    · have h0 : persist st0.persistCount = some msg := by rwa [Nat.add_zero] at hrej
      simp [readSettings, addToBlackboard, horg, h0, settingsEntriesFrom,
        settingsObsEntry, settingsObsContent]
    · have h0 : persist st0.persistCount = none := by
        have := hok 0 (by omega)
        rwa [Nat.add_zero] at this
      have h1 : persist (st0.persistCount + 1) = some msg := hrej
      simp [readSettings, addToBlackboard, horg, h0, h1, settingsEntriesFrom,
        settingsObsEntry, settingsAgeEntry, settingsObsContent, settingsAgeContent,
        List.append_assoc]
    · have h0 : persist st0.persistCount = none := by
        have := hok 0 (by omega)
        rwa [Nat.add_zero] at this
      have h1 : persist (st0.persistCount + 1) = none := hok 1 (by omega)
      have h2 : persist (st0.persistCount + 2) = some msg := hrej
      simp [readSettings, addToBlackboard, horg, h0, h1, h2, settingsEntriesFrom,
        settingsObsEntry, settingsAgeEntry, settingsHookEntry, settingsObsContent,
        settingsAgeContent, settingsHookContent, List.append_assoc]
  · rw [settingsEntryCount, horg] at hk
    interval_cases k
    · have h0 : persist st0.persistCount = some msg := by rwa [Nat.add_zero] at hrej
      simp [readSettings, addToBlackboard, horg, h0, settingsEntriesFrom,
        settingsObsEntry, settingsObsContent]
    · have h0 : persist st0.persistCount = none := by
        have := hok 0 (by omega)
        rwa [Nat.add_zero] at this
      have h1 : persist (st0.persistCount + 1) = some msg := hrej
      simp [readSettings, addToBlackboard, horg, h0, h1, settingsEntriesFrom,
        settingsObsEntry, settingsOrgEntry, settingsObsContent, settingsOrgContent,
        List.append_assoc]
    · have h0 : persist st0.persistCount = none := by
        have := hok 0 (by omega)
        rwa [Nat.add_zero] at this
      have h1 : persist (st0.persistCount + 1) = none := hok 1 (by omega)
      have h2 : persist (st0.persistCount + 2) = some msg := hrej
      simp [readSettings, addToBlackboard, horg, h0, h1, h2, settingsEntriesFrom,
        settingsObsEntry, settingsOrgEntry, settingsAgeEntry, settingsObsContent,
        settingsOrgContent, settingsAgeContent, List.append_assoc]
    · have h0 : persist st0.persistCount = none := by
        have := hok 0 (by omega)
        rwa [Nat.add_zero] at this
      have h1 : persist (st0.persistCount + 1) = none := hok 1 (by omega)
      have h2 : persist (st0.persistCount + 2) = none := hok 2 (by omega)
      have h3 : persist (st0.persistCount + 3) = some msg := hrej
      simp [readSettings, addToBlackboard, horg, h0, h1, h2, h3, settingsEntriesFrom,
        settingsObsEntry, settingsOrgEntry, settingsAgeEntry, settingsHookEntry,
        settingsObsContent, settingsOrgContent, settingsAgeContent, settingsHookContent,
        List.append_assoc]


/-- A concrete organization-free project row. -/
def projEx : ProjSettings :=
  { name := "N", description := none, created_at := "2024-01-01", organization := none }

/-- A fresh run state. -/
def runStateEx : RunState :=
  { blackboard := [], events := [], persistCount := 0, persisted := [], settings := none }

theorem claim_C10_witness :
    (readSettings (fun n => if n = 1 then some "boom" else none) (fun n => toString n)
      "ts" "d" 10 (.ok projEx) runStateEx).2.success = false :=
  (claim_C10 (fun n => if n = 1 then some "boom" else none) (fun n => toString n)
    "ts" "d" 10 projEx runStateEx 1 "boom" (by decide)
    (by intro j hj; interval_cases j; rfl) rfl).1

end Pronghorn
